import Mathlib

/-!
Verification of the Block-to-Python transpiler (file block_type_Based.py).

This development gives a shallow embedding of the transpiler pipeline:
the lexer (sourceToLine), the tokenizer (tokenize_line), the flat AST
assembler (linesToAst), the type system (TypeSystem) and the two-pass
code generator (astToPy), and proves or refutes the specified claims
about it.  All loops of the original are rendered as structural
recursions; index-driven loops carry an explicit fuel argument that is
instantiated, at every call site, with a bound that the original loop's
progress argument shows can never be exhausted (each iteration strictly
advances the index, which is bounded by the node-list length).

Python strings are modelled as Lean strings restricted to ASCII: the
original uses str.isalpha / str.isspace, which agree with the Char
predicates used here on ASCII input.
-/

namespace Block

/-- Python str.isspace on a single character (ASCII whitespace). -/
def py_is_space (c : Char) : Bool :=
  c = ' ' || c = '\t' || c = '\n' || c = '\r' || c = '\x0b' || c = '\x0c'

/-- Python str.isalpha for ASCII strings: nonempty and all alphabetic. -/
def py_isalpha (s : String) : Bool :=
  !s.isEmpty && s.data.all Char.isAlpha

/-- Python str.lstrip() on a character list. -/
def py_lstrip_chars (cs : List Char) : List Char :=
  cs.dropWhile py_is_space

/-- Python str.rstrip() on a character list. -/
def py_rstrip_chars (cs : List Char) : List Char :=
  (cs.reverse.dropWhile py_is_space).reverse

/-- Python str.strip() on a character list. -/
def py_strip_chars (cs : List Char) : List Char :=
  py_lstrip_chars (py_rstrip_chars cs)

/-- Python str.rstrip() on strings. -/
def py_rstrip (s : String) : String :=
  String.mk (py_rstrip_chars s.data)

/-- Python str.strip() on strings. -/
def py_strip (s : String) : String :=
  String.mk (py_strip_chars s.data)

/-- Value of the digit character list of a numeric literal (models int(s)
for an all-digit string). -/
def digits_to_nat (cs : List Char) : Nat :=
  cs.foldl (fun a c => 10 * a + (c.toNat - 48)) 0

/-- Models Python int(s) for a scanned numeric literal (optional leading
minus followed by digits). -/
def py_int : List Char → Int
  | '-' :: ds => -(digits_to_nat ds : Int)
  | ds => (digits_to_nat ds : Int)

/-- Models Python str(float(s)) for the plain decimal literals produced by
the tokenizer's numeric scan (sign, integer part, one dot, fraction part).
Leading zeros of the integer part and trailing zeros of the fraction are
normalized, an empty part becomes a single 0, exactly as CPython renders
short, exactly representable decimals.  (Scientific notation and double
rounding for very long literals are outside the model; no claim depends
on them.) -/
def py_float_str (cs : List Char) : String :=
  let sign : String := if cs.head? = some '-' then "-" else ""
  let mag : List Char := if cs.head? = some '-' then cs.drop 1 else cs
  let ip : List Char := mag.takeWhile (fun c => c ≠ '.')
  let fp : List Char := (mag.dropWhile (fun c => c ≠ '.')).drop 1
  let ip2 : List Char := if (ip.dropWhile (fun c => c = '0')).isEmpty
    then ['0'] else ip.dropWhile (fun c => c = '0')
  let fp2 : List Char := if ((fp.reverse.dropWhile (fun c => c = '0')).reverse).isEmpty
    then ['0'] else (fp.reverse.dropWhile (fun c => c = '0')).reverse
  sign ++ String.mk ip2 ++ "." ++ String.mk fp2

/-- Numeric literal value: NUMBER nodes carry either an int or a float.
A float is represented by its Python textual rendering str(float(s)),
which is all the transpiler ever uses of it. -/
inductive PyNum where
  | int (n : Int)
  | float (text : String)
  deriving DecidableEq

/-- str(value) for a NUMBER node's value. -/
def PyNum.str : PyNum → String
  | .int n => toString n
  | .float t => t

/-- Flat AST node, one constructor per node class of the source:
STRING, NUMBER, OPERAND, OPERATOR, KEYWORD, SPACE, TYPE, EOL. -/
inductive Node where
  | STRING (value : String)
  | NUMBER (value : PyNum)
  | OPERAND (value : String)
  | OPERATOR (value : String)
  | KEYWORD (value : String)
  | SPACE (value : String)
  | TYPE (value : String)
  | EOL
  deriving DecidableEq

/-- OPERATOR.operator_map: Block operator to Python operator.  All entries
other than the four below map a symbol to itself, and the fallback (as well
as the special operator "..") is also the identity, so only the four
non-identity entries need cases. -/
def operator_py_value (v : String) : String :=
  if v = "^" then "**"
  else if v = "!" then "not "
  else if v = "&" then " and "
  else if v = "|" then " or "
  else v

/-- The py_value attribute fixed at node construction time. -/
def Node.py_value : Node → String
  | .STRING s => "\"" ++ s ++ "\""
  | .NUMBER n => n.str
  | .OPERAND v => v
  | .OPERATOR v => operator_py_value v
  | .KEYWORD v => if v = "->" then "return" else if v = "fn" then "def" else v
  | .SPACE v => v
  | .TYPE _ => ""
  | .EOL => "\n"

/-- KEYWORD.keywords. -/
def keywords : List String :=
  ["for", "while", "if", "elif", "else", "in", "fn", "->"]

/-- TypeSystem.BUILTIN_TYPES. -/
def BUILTIN_TYPES : List String :=
  ["num", "bool", "str", "func", "list", "tuple", "map", "set"]

/-- TypeSystem.BUILTIN_FUNCTIONS. -/
def BUILTIN_FUNCTIONS : List String :=
  ["print", "len", "range", "type", "str", "int", "float", "bool", "list",
   "dict", "set", "tuple"]

/-- TypeSystem.BUILTIN_CONSTANTS: name, (type, Python rendering). -/
def BUILTIN_CONSTANTS : List (String × String × String) :=
  [("true", "bool", "True"), ("false", "bool", "False"), ("none", "str", "None")]

/-- The type system state.  The field vars models the dict named
variables in the source (that name is reserved in Lean); functions maps a
function name to its return type.  Association lists where the most recent
binding shadows older ones model the dict overwrite semantics. -/
structure TypeSystem where
  vars : List (String × String)
  functions : List (String × String)
  function_params : List (String × List (String × String))
  deriving DecidableEq

/-- TypeSystem.__init__: builtin functions are preregistered with default
return type num. -/
def TypeSystem.init : TypeSystem :=
  { vars := []
    functions := BUILTIN_FUNCTIONS.map (fun f => (f, "num"))
    function_params := [] }

/-- Python s.startswith(c) for a single-character prefix: first-character
equality.  (Lean's String.startsWith is defined by well-founded recursion
and does not evaluate inside the kernel, so the character-list form is
used.) -/
def starts_with_char (s : String) (c : Char) : Bool :=
  s.data.head? = some c

/-- Python s.endswith(c) for a single-character suffix. -/
def ends_with_char (s : String) (c : Char) : Bool :=
  s.data.getLast? = some c

/-- Python s.startswith(pre) for an arbitrary prefix. -/
def starts_with (s pre : String) : Bool :=
  pre.data.isPrefixOf s.data

/-- TypeSystem._is_collection_type: shape-only check that the descriptor is
bracketed by a matching delimiter pair.  The source's early-return if chain
is the disjunction written here. -/
def is_collection_type (t : String) : Bool :=
  if t.data.isEmpty then false
  else
    ((starts_with_char t '[' && ends_with_char t ']') ||
     (starts_with_char t '(' && ends_with_char t ')') ||
     (starts_with_char t '{' && ends_with_char t '}'))

/-- The claim's wording of a valid collection descriptor: a non-empty
string that starts with an opening delimiter and ends with the matching
closer.  Kept separate from is_collection_type so the code's check can be
compared against the spec's words. -/
def claimed_collection_shape (t : String) : Bool :=
  !t.data.isEmpty &&
    ((starts_with_char t '[' && ends_with_char t ']') ||
     (starts_with_char t '(' && ends_with_char t ')') ||
     (starts_with_char t '{' && ends_with_char t '}'))

/-- The validity condition of define_variable / define_function: the
negation of the source's raise condition (not a builtin tag and not a
collection shape). -/
def valid_type (t : String) : Bool :=
  BUILTIN_TYPES.contains t || is_collection_type t

/-- TypeSystem.define_variable. -/
def TypeSystem.define_variable (ts : TypeSystem) (name t : String) :
    Except String TypeSystem :=
  if valid_type t then
    .ok { ts with vars := (name, t) :: ts.vars }
  else
    .error ("Undefined type '" ++ t ++ "'")

/-- Parameter-type validation loop of TypeSystem.define_function. -/
def check_param_types (ts : TypeSystem) : List (String × String) → Except String TypeSystem
  | [] => .ok ts
  | (_, pt) :: rest =>
    if valid_type pt then check_param_types ts rest
    else .error ("Undefined parameter type '" ++ pt ++ "'")

/-- TypeSystem.define_function: validates the return type, records the
function, then validates every parameter type. -/
def TypeSystem.define_function (ts : TypeSystem) (name ret : String)
    (params : List (String × String)) : Except String TypeSystem :=
  if valid_type ret then
    check_param_types
      { ts with functions := (name, ret) :: ts.functions
                function_params := (name, params) :: ts.function_params }
      params
  else
    .error ("Undefined return type '" ++ ret ++ "'")

/-- TypeSystem.is_defined_variable. -/
def TypeSystem.is_defined_variable (ts : TypeSystem) (name : String) : Bool :=
  (ts.vars.lookup name).isSome

/-- TypeSystem.is_defined_function. -/
def TypeSystem.is_defined_function (ts : TypeSystem) (name : String) : Bool :=
  (ts.functions.lookup name).isSome

/-- True exactly on successful results. -/
def except_ok {α : Type} : Except String α → Bool
  | .ok _ => true
  | .error _ => false

theorem valid_type_eq_claimed (t : String) :
    valid_type t = (BUILTIN_TYPES.contains t || claimed_collection_shape t) := by
  unfold valid_type is_collection_type claimed_collection_shape
  cases h : t.data.isEmpty
  · rw [if_neg (by simp [h]), Bool.not_false, Bool.true_and]
  · rw [if_pos (by simp [h]), Bool.not_true, Bool.false_and]

theorem check_param_types_ok (ts : TypeSystem) (ps : List (String × String)) :
    except_ok (check_param_types ts ps) = ps.all (fun p => valid_type p.2) := by
  induction ps with
  | nil => rfl
  | cons p rest ih =>
    obtain ⟨pn, pt⟩ := p
    cases h : valid_type pt
    · rw [check_param_types, if_neg (by simp [h]), List.all_cons, h, Bool.false_and]
      rfl
    · rw [check_param_types, if_pos (by simp [h]), List.all_cons, h, Bool.true_and, ih]

/-- C8: define_variable raises an undefined-type error iff the descriptor
is neither a builtin scalar tag nor a non-empty, matching-closer bracketed
shape; on success the mapping is inserted or overwritten with no
prior-type conflict check; define_function applies the same validation to
the return type and to every parameter type. -/
theorem define_variable_type_validation :
    (∀ ts : TypeSystem, ∀ name t : String,
      except_ok (ts.define_variable name t) =
        (BUILTIN_TYPES.contains t || claimed_collection_shape t))
    ∧ (∀ ts : TypeSystem, ∀ name t e : String,
        ts.define_variable name t = .error e → e = "Undefined type '" ++ t ++ "'")
    ∧ (∀ ts ts' : TypeSystem, ∀ name t : String,
        ts.define_variable name t = .ok ts' → ts'.vars.lookup name = some t)
    ∧ (∀ ts : TypeSystem, ∀ name ret : String, ∀ ps : List (String × String),
        except_ok (ts.define_function name ret ps) =
          ((BUILTIN_TYPES.contains ret || claimed_collection_shape ret) &&
            ps.all (fun p => BUILTIN_TYPES.contains p.2 || claimed_collection_shape p.2))) := by
  have hall : ∀ ps : List (String × String),
      ps.all (fun p => valid_type p.2) =
        ps.all (fun p => BUILTIN_TYPES.contains p.2 || claimed_collection_shape p.2) := by
    intro ps
    induction ps with
    | nil => rfl
    | cons p rest ih => rw [List.all_cons, List.all_cons, ih, valid_type_eq_claimed]
  refine ⟨?_, ?_, ?_, ?_⟩
  · intro ts name t
    rw [← valid_type_eq_claimed]
    unfold TypeSystem.define_variable
    cases h : valid_type t
    · rw [if_neg (by simp [h])]; rfl
    · rw [if_pos (by simp [h])]; rfl
  · intro ts name t e h
    unfold TypeSystem.define_variable at h
    cases hv : valid_type t
    · rw [if_neg (by simp [hv])] at h
      injection h with h'
      exact h'.symm
    · rw [if_pos (by simp [hv])] at h
      cases h
  · intro ts ts' name t h
    unfold TypeSystem.define_variable at h
    cases hv : valid_type t
    · rw [if_neg (by simp [hv])] at h
      cases h
    · rw [if_pos (by simp [hv])] at h
      injection h with h'
      rw [← h']
      simp [List.lookup]
  · intro ts name ret ps
    rw [← valid_type_eq_claimed, ← hall]
    unfold TypeSystem.define_function
    cases h : valid_type ret
    · rw [if_neg (by simp [h]), Bool.false_and]; rfl
    · rw [if_pos (by simp [h]), Bool.true_and, check_param_types_ok]

/-- C8 witness: the theorem instantiated at a concrete call, its
success hypothesis discharged by evaluation. -/
theorem define_variable_type_validation_inst :
    ({ TypeSystem.init with vars := [("x", "[num]")] } : TypeSystem).vars.lookup "x" =
      some "[num]" :=
  define_variable_type_validation.2.2.1 TypeSystem.init _ "x" "[num]" (by rfl)

/-! ## Lexer: sourceToLine -/

/-- The newline/carriage-return escaping applied to a multi-line string
literal's content (replace of newline by backslash-n, then of carriage
return by backslash-r; the two replaces are independent, so a single pass
is equivalent). -/
def py_escape_nl (cs : List Char) : List Char :=
  cs.foldr
    (fun c acc =>
      if c = '\n' then '\\' :: 'n' :: acc
      else if c = '\r' then '\\' :: 'r' :: acc
      else c :: acc)
    []

/-- A stripped line is dropped as a comment when it starts with one of the
line-comment markers. -/
def is_comment_line (l : List Char) : Bool :=
  ['>', '>'].isPrefixOf l || ['#'].isPrefixOf l || ['/', '/'].isPrefixOf l ||
    ['/', '*'].isPrefixOf l || ['*', '/'].isPrefixOf l

/-- End-of-input step of sourceToLine: a final line without trailing
newline is kept unless blank or a comment. -/
def stl_finalize (cur : List Char) (lines : List String) : List String :=
  if (py_strip_chars cur).isEmpty then lines
  else if is_comment_line (py_strip_chars cur) then lines
  else lines ++ [String.mk (py_rstrip_chars cur)]

/-- Newline step of sourceToLine: blank and comment-only lines are
dropped, a line whose stripped form starts the block-comment opener
enters block-comment mode, anything else is emitted right-stripped. -/
def stl_newline (cur : List Char) (lines : List String) : Bool × List String :=
  let stripped := py_strip_chars cur
  if stripped.isEmpty then (false, lines)
  else if is_comment_line stripped then (['/', '*'].isPrefixOf stripped, lines)
  else (false, lines ++ [String.mk (py_rstrip_chars cur)])

/-- The character loop of sourceToLine.  prev is the previously examined
character (for the backslash look-behind of the quote toggle), in_block
the block-comment mode, str_buf the content of an open string literal
(none when outside one), cur the logical line being built.  Each step
consumes at least one character, so fuel equal to the character count is
never exhausted. -/
def stl_go : Nat → List Char → Option Char → Bool → Option (List Char) → List Char →
    List String → List String
  | _, [], _, _, _, cur, lines => stl_finalize cur lines
  | 0, _ :: _, _, _, _, cur, lines => stl_finalize cur lines
  | fuel + 1, c :: rest, prev, in_block, str_buf, cur, lines =>
    if in_block then
      match c, rest with
      | '*', '/' :: r2 => stl_go fuel r2 (some '/') false str_buf cur lines
      | _, _ => stl_go fuel rest (some c) true str_buf cur lines
    else if c = '"' && prev ≠ some '\\' then
      match str_buf with
      | none => stl_go fuel rest (some c) false (some []) cur lines
      | some buf =>
        stl_go fuel rest (some c) false none
          (cur ++ '"' :: py_escape_nl buf ++ ['"']) lines
    else
      match str_buf with
      | some buf => stl_go fuel rest (some c) false (some (buf ++ [c])) cur lines
      | none =>
        if c = '\n' then
          let (blk, lines') := stl_newline cur lines
          stl_go fuel rest (some c) blk none [] lines'
        else stl_go fuel rest (some c) false none (cur ++ [c]) lines

/-- sourceToLine: raw source text to the list of logical lines. -/
def sourceToLine (source : String) : List String :=
  stl_go source.data.length source.data none false none [] []

/-! ## Tokenizer: tokenize_line -/

/-- The numeric-literal scan from the second character of the literal on:
consume digits, and at most one dot, refusing a dot whose immediately
following character is also a dot (look-ahead preserving the range
operator).  Returns the consumed characters and the rest of the line. -/
def scan_number : List Char → Bool → List Char × List Char
  | [], _ => ([], [])
  | c :: rest, has_dot =>
    if c.isDigit then
      let p := scan_number rest has_dot
      (c :: p.1, p.2)
    else if c = '.' && !has_dot then
      match rest with
      | '.' :: _ => ([], c :: rest)
      | _ =>
        let p := scan_number rest true
        (c :: p.1, p.2)
    else ([], c :: rest)

/-- The string-literal scan: consume up to the next quote not preceded by
a backslash (prev is the previously consumed character); the closing quote
is consumed but not part of the content.  An unterminated literal runs to
the end of the line. -/
def scan_qstring : List Char → Char → List Char × List Char
  | [], _ => ([], [])
  | c :: rest, prev =>
    if c = '"' && prev ≠ '\\' then ([], rest)
    else
      let p := scan_qstring rest c
      (c :: p.1, p.2)

/-- Is the next character a digit (for the leading-minus rule)? -/
def digit_next : List Char → Bool
  | c :: _ => c.isDigit
  | [] => false

/-- The fixed two-character operator table. -/
def is_two_char_op (c1 c2 : Char) : Bool :=
  (c1 = '.' && c2 = '.') || (c1 = '=' && c2 = '=') || (c1 = '!' && c2 = '=') ||
  (c1 = '>' && c2 = '=') || (c1 = '<' && c2 = '=') || (c1 = '/' && c2 = '/') ||
  (c1 = '-' && c2 = '>')

/-- The fixed single-character operator set. -/
def single_ops : List Char :=
  ['+', '-', '*', '/', '^', '%', '=', '!', '&', '|', '(', ')', '<', '>', '{', '}']

/-- Is this a character of an identifier continuation? -/
def ident_cont (c : Char) : Bool :=
  c.isAlphanum || c = '_'

/-- The NUMBER node built from a scanned literal: float flavor exactly
when a decimal point was consumed. -/
def number_node (num : List Char) : Node :=
  if num.contains '.' then Node.NUMBER (.float (py_float_str num))
  else Node.NUMBER (.int (py_int num))

/-- Single-character and identifier alternatives of the scanner, tried
after the two-character operators. -/
def next_token_single (c : Char) (rest : List Char) : Option Node × List Char :=
  if single_ops.contains c then (some (.OPERATOR (String.mk [c])), rest)
  else if c = '[' || c = ']' || c = ',' || c = ':' then
    (some (.OPERAND (String.mk [c])), rest)
  else if c.isAlpha || c = '_' then
    let word := String.mk (c :: rest.takeWhile ident_cont)
    (some (if keywords.contains word then .KEYWORD word else .OPERAND word),
      rest.dropWhile ident_cont)
  else (none, rest)

/-- One iteration of the tokenizer loop: longest-match-first scanning in
the source's order (whitespace skip, string literal, numeric literal,
two-character operator, single-character operator, bracket punctuation,
identifier or keyword, silent skip). -/
def next_token : List Char → Option Node × List Char
  | [] => (none, [])
  | c :: rest =>
    if py_is_space c then (none, rest)
    else if c = '"' then
      let p := scan_qstring rest '"'
      (some (.STRING (String.mk p.1)), p.2)
    else if c.isDigit || (c = '-' && digit_next rest) then
      let p := scan_number rest false
      (some (number_node (c :: p.1)), p.2)
    else
      match rest with
      | c2 :: r2 =>
        if is_two_char_op c c2 then
          (some (if c = '-' && c2 = '>' then .KEYWORD "->"
                 else .OPERATOR (String.mk [c, c2])), r2)
        else next_token_single c rest
      | [] => next_token_single c []

/-- The tokenizer loop.  Every iteration consumes at least one character,
so fuel equal to the character count is never exhausted. -/
def tokenize_go : Nat → List Char → List Node
  | 0, _ => []
  | _, [] => []
  | fuel + 1, c :: rest =>
    match next_token (c :: rest) with
    | (none, r) => tokenize_go fuel r
    | (some t, r) => t :: tokenize_go fuel r

/-- tokenize_line on a character list. -/
def tokenize_chars (cs : List Char) : List Node :=
  tokenize_go cs.length cs

/-- tokenize_line: one logical line to its token sequence. -/
def tokenize_line (content : String) : List Node :=
  tokenize_chars content.data

/-! ## AST assembler: linesToAst -/

/-- linesToAst: an indentation node for the leading-whitespace run (when
any), the line's tokens, then a line-end node; a blank line is a bare
line-end node. -/
def linesToAst (lines : List String) : List Node :=
  (lines.map (fun line =>
    if line.data.isEmpty then [Node.EOL]
    else
      let content := line.data.dropWhile py_is_space
      let indent := line.data.length - content.length
      (if indent > 0 then [Node.SPACE (String.mk (List.replicate indent ' '))] else [])
        ++ tokenize_chars content ++ [Node.EOL])).flatten
/-! ## Pass 1: discovery (symbol table and collection-variable set) -/

/-- The bracket-punctuation operand values excluded from identifier
positions. -/
def punct_values : List String := ["[", "]", ",", ":", "="]

/-- The collection-literal opening delimiters. -/
def is_open_delim (w : String) : Bool :=
  w = "[" || w = "(" || w = "\x7b"

/-- Matching closer of an opening delimiter (only called on one of the
three openers). -/
def closing_of (v : String) : String :=
  if v = "[" then "]" else if v = "(" then ")" else "\x7d"

/-- Python set.add on the list model of the collection-variable set. -/
def set_add (s : List String) (x : String) : List String :=
  if s.contains x then s else s ++ [x]

/-- Inner bracket-consuming loop of extract_type_info: appends operand
values (only those) while tracking the depth of the opening delimiter,
including the closing token that brings the depth to zero. -/
def eti_inner (nodes : List Node) : Nat → Nat → String → String → Nat →
    List String → List String × Nat
  | 0, idx, _, _, _, acc => (acc, idx)
  | fuel + 1, idx, br, cl, depth, acc =>
    if depth = 0 then (acc, idx)
    else
      match nodes[idx]? with
      | none => (acc, idx)
      | some (.OPERAND v) =>
        let depth' := if v = br then depth + 1 else if v = cl then depth - 1 else depth
        eti_inner nodes fuel (idx + 1) br cl depth' (acc ++ [v])
      | some _ => eti_inner nodes fuel (idx + 1) br cl depth acc

/-- Token-collecting loop of extract_type_info: stops at the line end, an
assignment or comma operand, or anything that is neither an alphabetic
operand nor an opening delimiter. -/
def eti_loop (nodes : List Node) : Nat → Nat → List String → List String × Nat
  | 0, idx, acc => (acc, idx)
  | fuel + 1, idx, acc =>
    match nodes[idx]? with
    | none => (acc, idx)
    | some .EOL => (acc, idx)
    | some (.OPERAND v) =>
      if v = "=" || v = "," then (acc, idx)
      else if py_isalpha v then eti_loop nodes fuel (idx + 1) (acc ++ [v])
      else if is_open_delim v then
        eti_inner nodes (nodes.length + 1) (idx + 1) v (closing_of v) 1 (acc ++ [v])
      else (acc, idx)
    | some _ => (acc, idx)

/-- extract_type_info: from a colon operand at start, the joined type
descriptor text (none when no tokens were collected) and the index after
the consumed tokens; anything else returns (none, start) unchanged. -/
def extract_type_info (nodes : List Node) (start : Nat) : Option String × Nat :=
  match nodes[start]? with
  | some (.OPERAND v) =>
    if v = ":" then
      let (acc, idx) := eti_loop nodes (nodes.length + 1) (start + 1) []
      (if acc.isEmpty then none else some (String.join acc), idx)
    else (none, start)
  | _ => (none, start)

/-- infer_value_type: shallow, first-token type inference for an untyped
declaration. -/
def infer_value_type (nodes : List Node) (start : Nat) (ts : TypeSystem) : String :=
  match nodes[start]? with
  | none => "num"
  | some (.STRING _) => "str"
  | some (.NUMBER _) => "num"
  | some (.OPERAND v) =>
    match BUILTIN_CONSTANTS.lookup v with
    | some (ty, _) => ty
    | none =>
      if v = "[" then "list"
      else if v = "(" then "tuple"
      else if v = "\x7b" then "set"
      else
        match ts.vars.lookup v with
        | some t => t
        | none => if (ts.functions.lookup v).isSome then "func" else "num"
  | some _ => "num"

/-- Scan forward for the next closing-bracket operand; returns its index
(or the list length when absent). -/
def scan_to_rbracket (nodes : List Node) : Nat → Nat → Nat
  | 0, j => j
  | fuel + 1, j =>
    match nodes[j]? with
    | none => j
    | some (.OPERAND v) => if v = "]" then j else scan_to_rbracket nodes fuel (j + 1)
    | some _ => scan_to_rbracket nodes fuel (j + 1)

/-- Skip the raw default-value tokens of a parameter up to the next comma
or closing-bracket operand (the collected text is dead in the original:
param_defaults is filled and never read). -/
def skip_default (nodes : List Node) : Nat → Nat → Nat
  | 0, k => k
  | fuel + 1, k =>
    match nodes[k]? with
    | none => k
    | some (.OPERAND v) =>
      if v = "," || v = "]" then k else skip_default nodes fuel (k + 1)
    | some _ => skip_default nodes fuel (k + 1)

/-- Parameter-list extraction of the fn discovery: an operand other than
comma or colon starts a parameter, an optional colon annotation fixes its
type when the extracted name is a builtin tag, an optional default value
is skipped; everything else advances. -/
def extract_params (nodes : List Node) : Nat → Nat → List (String × String) →
    List (String × String)
  | 0, _, acc => acc
  | fuel + 1, k, acc =>
    match nodes[k]? with
    | none => acc
    | some (.OPERAND v) =>
      if v = "]" then acc
      else if v = "," || v = ":" then extract_params nodes fuel (k + 1) acc
      else
        let k1 := k + 1
        let pt_k2 : String × Nat :=
          match nodes[k1]? with
          | some (.OPERAND w) =>
            if w = ":" then
              match extract_type_info nodes k1 with
              | (some t, te) => (if BUILTIN_TYPES.contains t then t else "num", te)
              | (none, te) => ("num", te)
            else ("num", k1)
          | _ => ("num", k1)
        let k3 : Nat :=
          match nodes[pt_k2.2]? with
          | some (.OPERATOR o) =>
            if o = "=" then skip_default nodes (nodes.length + 1) (pt_k2.2 + 1)
            else pt_k2.2
          | _ => pt_k2.2
        extract_params nodes fuel k3 (acc ++ [(v, pt_k2.1)])
    | some _ => extract_params nodes fuel (k + 1) acc

/-- Pass-1 registration of a for-loop variable as a num-typed variable. -/
def pass1_for (nodes : List Node) (i : Nat) (ts : TypeSystem) :
    Except String TypeSystem :=
  match nodes[i]? with
  | some (.KEYWORD kv) =>
    if kv = "for" then
      match nodes[i + 1]? with
      | some (.OPERAND lv) => ts.define_variable lv "num"
      | _ => .ok ts
    else .ok ts
  | _ => .ok ts

/-- Pass-1 registration of a function definition: the return type is read
from a colon after the closing bracket of the parameter list (kept only
when a builtin tag), the parameters from the bracket after the name. -/
def pass1_fn (nodes : List Node) (i : Nat) (ts : TypeSystem) :
    Except String TypeSystem :=
  match nodes[i]? with
  | some (.KEYWORD kv) =>
    if kv = "fn" then
      match nodes[i + 1]? with
      | some (.OPERAND fname) =>
        let j := scan_to_rbracket nodes (nodes.length + 1) (i + 2)
        let ret : String :=
          match nodes[j + 1]? with
          | some (.OPERAND cval) =>
            if cval = ":" then
              match (extract_type_info nodes (j + 1)).1 with
              | some t => if BUILTIN_TYPES.contains t then t else "num"
              | none => "num"
            else "num"
          | _ => "num"
        let params : List (String × String) :=
          match nodes[i + 2]? with
          | some (.OPERAND bv) =>
            if bv = "[" then extract_params nodes (nodes.length + 1) (i + 3) []
            else []
          | _ => []
        ts.define_function fname ret params
      | _ => .ok ts
    else .ok ts
  | _ => .ok ts

/-- Pass-1 registration of a variable declaration: a non-punctuation
operand followed by a colon annotation (define when the descriptor is
valid, then mark as collection variable when an opening delimiter operand
follows the assignment sign) or followed by an assignment sign (infer the
type from the first value token, define, and mark as collection variable
when that token is an opening delimiter operand). -/
def pass1_var (nodes : List Node) (i : Nat) (ts : TypeSystem) (cv : List String) :
    Except String (TypeSystem × List String) :=
  match nodes[i]?, nodes[i + 1]? with
  | some (.OPERAND v), some next =>
    if punct_values.contains v then .ok (ts, cv)
    else
      match next with
      | .OPERAND nv =>
        if nv = ":" then
          let (var_type, type_end) := extract_type_info nodes (i + 1)
          let step : Except String TypeSystem :=
            match var_type with
            | some t => if valid_type t then ts.define_variable v t else .ok ts
            | none => .ok ts
          match step with
          | .error e => .error e
          | .ok ts1 =>
            let cv1 :=
              match nodes[type_end]?, nodes[type_end + 1]? with
              | some (.OPERATOR o), some (.OPERAND w) =>
                if o = "=" && is_open_delim w then set_add cv v else cv
              | _, _ => cv
            .ok (ts1, cv1)
        else .ok (ts, cv)
      | .OPERATOR ov =>
        if ov = "=" then
          match nodes[i + 2]? with
          | none => .ok (ts, cv)
          | some value_node =>
            match ts.define_variable v (infer_value_type nodes (i + 2) ts) with
            | .error e => .error e
            | .ok ts1 =>
              let cv1 :=
                match value_node with
                | .OPERAND w => if is_open_delim w then set_add cv v else cv
                | _ => cv
              .ok (ts1, cv1)
        else .ok (ts, cv)
      | _ => .ok (ts, cv)
  | _, _ => .ok (ts, cv)

/-- One index of the pass-1 loop: the three independent registrations in
the source's order. -/
def pass1_step (nodes : List Node) (i : Nat) (ts : TypeSystem) (cv : List String) :
    Except String (TypeSystem × List String) :=
  match pass1_for nodes i ts with
  | .error e => .error e
  | .ok ts1 =>
    match pass1_fn nodes i ts1 with
    | .error e => .error e
    | .ok ts2 => pass1_var nodes i ts2 cv

/-- The pass-1 loop over every index. -/
def pass1_go (nodes : List Node) : Nat → Nat → TypeSystem → List String →
    Except String (TypeSystem × List String)
  | 0, i, ts, cv =>
    match nodes[i]? with
    | none => .ok (ts, cv)
    | some _ => .error "fuel exhausted"
  | fuel + 1, i, ts, cv =>
    match nodes[i]? with
    | none => .ok (ts, cv)
    | some _ =>
      match pass1_step nodes i ts cv with
      | .error e => .error e
      | .ok (ts1, cv1) => pass1_go nodes fuel (i + 1) ts1 cv1

/-- Pass 1 from a fresh type system and an empty collection-variable set,
exactly as astToPy constructs them. -/
def pass1 (nodes : List Node) : Except String (TypeSystem × List String) :=
  pass1_go nodes (nodes.length + 1) 0 TypeSystem.init []

/-! ## Pass 2: emission -/

/-- Rendered text of a token list: the concatenation of py_value. -/
def render (toks : List Node) : String :=
  String.join (toks.map Node.py_value)

/-- Bracket-content collection at an opening bracket: everything up to the
matching closing-bracket operand (nested content included, the closer
excluded), stopping early at a line end. -/
def collect_bracket (nodes : List Node) : Nat → Nat → Nat → List Node →
    List Node × Nat
  | 0, j, _, acc => (acc, j)
  | fuel + 1, j, depth, acc =>
    match nodes[j]? with
    | none => (acc, j)
    | some .EOL => (acc, j)
    | some (.OPERAND v) =>
      if v = "[" then collect_bracket nodes fuel (j + 1) (depth + 1) (acc ++ [.OPERAND v])
      else if v = "]" then
        if depth = 1 then (acc, j)
        else collect_bracket nodes fuel (j + 1) (depth - 1) (acc ++ [.OPERAND v])
      else collect_bracket nodes fuel (j + 1) depth (acc ++ [.OPERAND v])
    | some n => collect_bracket nodes fuel (j + 1) depth (acc ++ [n])

/-- Number of colon operands anywhere in the collected content. -/
def colon_count (content : List Node) : Nat :=
  content.countP (fun n => n = .OPERAND ":")

/-- Number of comma operands anywhere in the collected content. -/
def comma_count (content : List Node) : Nat :=
  content.countP (fun n => n = .OPERAND ",")

/-- The comma split of the slice branch: parts between comma operands, a
part ending at a comma kept even when empty, the trailing part kept only
when non-empty. -/
def split_commas_go : List Node → List Node → List (List Node) → List (List Node)
  | [], cur, parts => if cur.isEmpty then parts else parts ++ [cur]
  | t :: rest, cur, parts =>
    if t = .OPERAND "," then split_commas_go rest [] (parts ++ [cur])
    else split_commas_go rest (cur ++ [t]) parts

/-- Comma split of a bracket's content. -/
def split_commas (content : List Node) : List (List Node) :=
  split_commas_go content [] []

/-- Scan (inside the unhashable check) from just after a nested opening
bracket: a colon operand before the next closing-bracket operand marks a
nested map. -/
def dict_scan_inner : List Node → Bool
  | [] => false
  | n :: rest =>
    if n = .OPERAND "]" then false
    else if n = .OPERAND ":" then true
    else dict_scan_inner rest

/-- The unhashable check of the list-literal branch: some nested opening
bracket whose following tokens contain a colon operand before a closing
bracket. -/
def has_dict : List Node → Bool
  | [] => false
  | n :: rest =>
    (if n = .OPERAND "[" then dict_scan_inner rest else false) || has_dict rest

/-- Result of the opening-bracket decision: text to append, continuing
either at the next node (cont) or past the matching closer (skip). -/
inductive BracketAction where
  | cont (s : String)
  | skip (s : String)
  deriving DecidableEq

/-- The text a bracket action appends. -/
def act_text : BracketAction → String
  | .cont s => s
  | .skip s => s

/-- Is the node before the bracket a non-punctuation operand? -/
def is_after_var : Option Node → Bool
  | some (.OPERAND v) => !punct_values.contains v
  | _ => false

/-- The name of that operand, when is_after_var holds. -/
def prev_var_name : Option Node → Option String
  | some (.OPERAND v) => if punct_values.contains v then none else some v
  | _ => none

/-- The opening-bracket decision of pass 2: subscript/slice forms after a
collection-variable operand, a call parenthesis after any other operand,
otherwise a map or list literal by colon content, the list case rejecting
a nested map. -/
def open_bracket (prev : Option Node) (content : List Node) (cv : List String) :
    Except String BracketAction :=
  let after := is_after_var prev
  let is_coll : Bool :=
    match prev_var_name prev with
    | some v => cv.contains v
    | none => false
  let has_colon_pair := colon_count content > 0
  let has_comma := comma_count content > 0
  if after && is_coll then
    if content.isEmpty then .ok (.skip "[:]")
    else if has_comma && !has_colon_pair then
      match split_commas content with
      | [p0, p1] => .ok (.skip ("[" ++ render p0 ++ ":" ++ render p1 ++ "+1]"))
      | _ => .ok (.cont "[")
    else .ok (.cont "[")
  else if after then .ok (.cont "(")
  else
    if has_colon_pair then .ok (.cont "\x7b")
    else if has_dict content then
      .error "Cannot use dict (unhashable) type in set/list literal"
    else .ok (.cont "[")

/-- The closing-bracket resolution: scan the already emitted line text
backwards with three independent depth counters and emit the closer of
the first opener that goes unmatched. -/
def close_scan : List Char → Int → Int → Int → String
  | [], pc, _, brc => if pc < 0 then ")" else if brc < 0 then "\x7d" else "]"
  | c :: rest, pc, bc, brc =>
    if c = ')' then close_scan rest (pc + 1) bc brc
    else if c = '(' then
      (if pc - 1 < 0 then ")" else close_scan rest (pc - 1) bc brc)
    else if c = ']' then close_scan rest pc (bc + 1) brc
    else if c = '[' then
      (if bc - 1 < 0 then "]" else close_scan rest pc (bc - 1) brc)
    else if c = '}' then close_scan rest pc bc (brc + 1)
    else if c = '{' then
      (if brc - 1 < 0 then "\x7d" else close_scan rest pc bc (brc - 1))
    else close_scan rest pc bc brc

/-- The character appended for a closing-bracket operand, from the current
line text. -/
def close_bracket_char (line : String) : String :=
  close_scan line.data.reverse 0 0 0

/-- The variable-use check shared by the identifier-emission branches:
present in the symbol table as variable or function, else an undefined
identifier error; on success the namespaced form. -/
def emit_ident_use (ts : TypeSystem) (v : String) : Except String String :=
  if !ts.is_defined_variable v && !ts.is_defined_function v then
    .error ("Undefined identifier '" ++ v ++ "'")
  else .ok ("block_" ++ v)

/-- Identifier emission: builtin constant, builtin function, then the
next-token cases of the source (call parenthesis with a function check,
assignment target, annotation colon, general value use, end of input).
The comma guard of the source is kept although unreachable for the
alphabetic values this is called on. -/
def emit_identifier (ts : TypeSystem) (v : String) (next : Option Node) :
    Except String String :=
  if v = "," then .ok ""
  else
    match BUILTIN_CONSTANTS.lookup v with
    | some (_, py) => .ok py
    | none =>
      if BUILTIN_FUNCTIONS.contains v then .ok v
      else
        match next with
        | some (.OPERATOR o) =>
          if o = "(" then
            if !ts.is_defined_function v then
              .error ("Undefined function '" ++ v ++ "'")
            else .ok ("block_" ++ v)
          else if o = "=" then .ok ("block_" ++ v)
          else emit_ident_use ts v
        | some (.OPERAND w) =>
          if w = ":" then .ok ("block_" ++ v) else emit_ident_use ts v
        | some _ => emit_ident_use ts v
        | none => .ok ("block_" ++ v)

/-- The split of the iterable tokens at the range operator: tokens before
the first range operator and tokens after it, every range-operator token
itself excluded from both sides. -/
def range_split : List Node → Bool → List Node × List Node
  | [], _ => ([], [])
  | t :: rest, found =>
    if t = .OPERATOR ".." then range_split rest true
    else
      let p := range_split rest found
      if found then (p.1, t :: p.2) else (t :: p.1, p.2)

/-- The iterable-clause text of a for line: an end-inclusive range
construct when a range operator with non-empty rendered sides is present,
else the token text unchanged. -/
def for_iterable_text (toks : List Node) : String :=
  if toks.any (fun t => t = .OPERATOR "..") then
    let se := range_split toks false
    let start_expr := render se.1
    let end_expr := render se.2
    if !start_expr.data.isEmpty && !end_expr.data.isEmpty then
      "range(" ++ start_expr ++ ", " ++ end_expr ++ " + 1)"
    else render toks
  else render toks

/-- Collection of the iterable tokens: up to the line end or a colon
operand. -/
def collect_iterable (nodes : List Node) : Nat → Nat → List Node →
    List Node × Nat
  | 0, i, acc => (acc, i)
  | fuel + 1, i, acc =>
    match nodes[i]? with
    | none => (acc, i)
    | some .EOL => (acc, i)
    | some (.OPERAND v) =>
      if v = ":" then (acc, i)
      else collect_iterable nodes fuel (i + 1) (acc ++ [.OPERAND v])
    | some n => collect_iterable nodes fuel (i + 1) (acc ++ [n])

/-- The for-line loop of pass 2: the in keyword switches to the iterable
clause, alphabetic operands before it are namespaced, everything else is
re-emitted by py_value. -/
def emit_for_loop (nodes : List Node) : Nat → Nat → String → String × Nat
  | 0, i, line => (line, i)
  | fuel + 1, i, line =>
    match nodes[i]? with
    | none => (line, i)
    | some .EOL => (line, i)
    | some (.KEYWORD kv) =>
      if kv = "in" then
        let ti := collect_iterable nodes (nodes.length + 2) (i + 1) []
        emit_for_loop nodes fuel ti.2 (line ++ " in " ++ for_iterable_text ti.1)
      else emit_for_loop nodes fuel (i + 1) (line ++ (Node.KEYWORD kv).py_value)
    | some (.OPERAND v) =>
      if py_isalpha v then emit_for_loop nodes fuel (i + 1) (line ++ "block_" ++ v)
      else emit_for_loop nodes fuel (i + 1) (line ++ v)
    | some n => emit_for_loop nodes fuel (i + 1) (line ++ n.py_value)

/-- The for branch of pass 2. -/
def emit_for (nodes : List Node) (i : Nat) (line : String) : String × Nat :=
  emit_for_loop nodes (nodes.length + 2) (i + 1) (line ++ "for ")

/-- Default-value re-emission in a function definition header: raw
py_value text up to the next comma or closing-bracket operand, colon
annotations skipped. -/
def emit_default (nodes : List Node) : Nat → Nat → String → String × Nat
  | 0, i, line => (line, i)
  | fuel + 1, i, line =>
    match nodes[i]? with
    | none => (line, i)
    | some (.OPERAND v) =>
      if v = "," || v = "]" then (line, i)
      else if v = ":" then
        emit_default nodes fuel (extract_type_info nodes i).2 line
      else emit_default nodes fuel (i + 1) (line ++ v)
    | some n => emit_default nodes fuel (i + 1) (line ++ n.py_value)

/-- The parameter-list loop of the fn branch: annotations are skipped,
alphabetic parameter names are namespaced, defaults re-emitted after an
equals sign, commas copied; ends at the closing-bracket operand (emitting
the closing parenthesis) or a line end. -/
def emit_fn_params (nodes : List Node) : Nat → Nat → String → String × Nat
  | 0, i, line => (line, i)
  | fuel + 1, i, line =>
    match nodes[i]? with
    | none => (line, i)
    | some .EOL => (line, i)
    | some (.OPERAND v) =>
      if v = "]" then (line ++ ")", i + 1)
      else if v = ":" then
        emit_fn_params nodes fuel (extract_type_info nodes i).2 line
      else if py_isalpha v then
        let line1 := line ++ "block_" ++ v
        match nodes[i + 1]? with
        | some (.OPERATOR o) =>
          if o = "=" then
            let d := emit_default nodes (nodes.length + 2) (i + 2) (line1 ++ "=")
            emit_fn_params nodes fuel d.2 d.1
          else emit_fn_params nodes fuel (i + 1) line1
        | _ => emit_fn_params nodes fuel (i + 1) line1
      else if v = "," then emit_fn_params nodes fuel (i + 1) (line ++ ",")
      else emit_fn_params nodes fuel (i + 1) line
    | some _ => emit_fn_params nodes fuel (i + 1) line

/-- The fn branch of pass 2: def, the namespaced function name, then the
parameter list with the bracket rendered as parentheses. -/
def emit_fn (nodes : List Node) (i : Nat) (line : String) : String × Nat :=
  let line1 := line ++ "def "
  let i1 := i + 1
  let step2 : String × Nat :=
    match nodes[i1]? with
    | some (.OPERAND fname) => (line1 ++ "block_" ++ fname, i1 + 1)
    | _ => (line1, i1)
  match nodes[step2.2]? with
  | some (.OPERAND bv) =>
    if bv = "[" then
      emit_fn_params nodes (nodes.length + 2) (step2.2 + 1) (step2.1 ++ "(")
    else step2
  | _ => step2

/-- The colon-operand rule of pass 2: a colon after an alphabetic operand
or a closing bracket, at index at least two, followed by a TYPE node or a
builtin type tag, is an annotation and is skipped with its type; any other
colon is emitted (map literals). -/
def colon_action (nodes : List Node) (i : Nat) : String × Nat :=
  let is_ann : Bool :=
    if i ≥ 2 then
      match nodes[i - 1]? with
      | some (.OPERAND pv) =>
        if py_isalpha pv || pv = "]" then
          match nodes[i + 1]? with
          | some (.TYPE _) => true
          | some (.OPERAND w) => BUILTIN_TYPES.contains w
          | _ => false
        else false
      | _ => false
    else false
  if is_ann then ("", (extract_type_info nodes i).2)
  else (":", i + 1)

/-- The keywords whose lines get an auto-appended block-opening colon. -/
def control_kws : List String := ["if ", "elif ", "while ", "else", "def "]

/-- Line finalization at a line-end node: append a colon to non-empty
control-flow and definition lines that do not already end with one. -/
def eol_finalize (line : String) : String :=
  if !line.data.isEmpty && !(ends_with_char (py_rstrip line) ':') &&
      (control_kws.any (fun kw => starts_with (py_strip line) kw)) then
    line ++ ":"
  else line

/-- The pass-2 streaming loop.  Every branch strictly advances the index,
so fuel two above the node count is never exhausted. -/
def pass2_go (nodes : List Node) (ts : TypeSystem) (cv : List String) :
    Nat → Nat → List String → String → Except String (List String)
  | 0, i, code, line =>
    match nodes[i]? with
    | none => .ok (if line.data.isEmpty then code else code ++ [line])
    | some _ => .error "fuel exhausted"
  | fuel + 1, i, code, line =>
    match nodes[i]? with
    | none => .ok (if line.data.isEmpty then code else code ++ [line])
    | some node =>
      match node with
      | .EOL => pass2_go nodes ts cv fuel (i + 1) (code ++ [eol_finalize line]) ""
      | .SPACE s => pass2_go nodes ts cv fuel (i + 1) code (line ++ s)
      | .KEYWORD kv =>
        if kv = "fn" then
          let r := emit_fn nodes i line
          pass2_go nodes ts cv fuel r.2 code r.1
        else if kv = "->" then
          pass2_go nodes ts cv fuel (i + 1) code (line ++ "return ")
        else if kv = "for" then
          let r := emit_for nodes i line
          pass2_go nodes ts cv fuel r.2 code r.1
        else if kv = "if" || kv = "elif" || kv = "while" then
          pass2_go nodes ts cv fuel (i + 1) code (line ++ kv ++ " ")
        else if kv = "else" then
          pass2_go nodes ts cv fuel (i + 1) code (line ++ kv)
        else
          pass2_go nodes ts cv fuel (i + 1) code
            (line ++ (Node.KEYWORD kv).py_value ++ " ")
      | .TYPE _ => pass2_go nodes ts cv fuel (i + 1) code line
      | .OPERAND v =>
        if v = ":" then
          let r := colon_action nodes i
          pass2_go nodes ts cv fuel r.2 code (line ++ r.1)
        else if v = "[" then
          let cb := collect_bracket nodes (nodes.length + 2) (i + 1) 1 []
          match open_bracket (if i = 0 then none else nodes[i - 1]?) cb.1 cv with
          | .error e => .error e
          | .ok (.cont s) => pass2_go nodes ts cv fuel (i + 1) code (line ++ s)
          | .ok (.skip s) => pass2_go nodes ts cv fuel (cb.2 + 1) code (line ++ s)
        else if v = "]" then
          pass2_go nodes ts cv fuel (i + 1) code (line ++ close_bracket_char line)
        else if py_isalpha v || v = "_" then
          match emit_identifier ts v nodes[i + 1]? with
          | .error e => .error e
          | .ok s => pass2_go nodes ts cv fuel (i + 1) code (line ++ s)
        else pass2_go nodes ts cv fuel (i + 1) code (line ++ v)
      | _ => pass2_go nodes ts cv fuel (i + 1) code (line ++ node.py_value)

/-- astToPy: pass 1 on a fresh symbol table and collection-variable set,
then pass 2, then the newline join. -/
def astToPy (nodes : List Node) : Except String String :=
  match pass1 nodes with
  | .error e => .error e
  | .ok (ts, cv) =>
    match pass2_go nodes ts cv (nodes.length + 2) 0 [] "" with
    | .error e => .error e
    | .ok ls => .ok (String.intercalate "\n" ls)

/-- transpile: the full pipeline. -/
def transpile (source : String) : Except String String :=
  astToPy (linesToAst (sourceToLine source))

/-- Two transpilation calls from one host process: each call rebuilds its
state from scratch (astToPy constructs the fresh TypeSystem and the empty
collection-variable set itself), so the pair depends on nothing but the
two source texts. -/
def transpile_twice (s t : String) : Except String String × Except String String :=
  (transpile s, transpile t)

/-! ## Spec-side notions used to state the claims -/

/-- Colon operands at the top nesting level of a bracket's content (the
spec's notion; the code's colon_count counts every depth). -/
def tlcc_go : List Node → Nat → Nat
  | [], _ => 0
  | n :: rest, d =>
    if n = .OPERAND "[" then tlcc_go rest (d + 1)
    else if n = .OPERAND "]" then tlcc_go rest (d - 1)
    else if n = .OPERAND ":" then (if d = 0 then 1 else 0) + tlcc_go rest d
    else tlcc_go rest d

/-- Top-level colon count of a bracket's content. -/
def top_level_colon_count (content : List Node) : Nat :=
  tlcc_go content 0

/-- Python slicing l[a:b] for indices within bounds. -/
def py_slice {α : Type} (l : List α) (a b : Nat) : List α :=
  (l.take b).drop a

/-- The value list of Python range(lo, hi) with step one. -/
def py_range (lo hi : Int) : List Int :=
  (List.range (hi - lo).toNat).map (fun k : Nat => lo + (k : Int))

/-- The maximal identifier-character runs of an emitted text: an occurrence
of a declared name in the output is such a run equal to the name, a
namespaced occurrence is a run equal to the name with the block prefix. -/
def ident_runs_go : List Char → List Char → List String → List String
  | [], cur, acc => if cur.isEmpty then acc else acc ++ [String.mk cur]
  | c :: rest, cur, acc =>
    if ident_cont c then ident_runs_go rest (cur ++ [c]) acc
    else ident_runs_go rest [] (if cur.isEmpty then acc else acc ++ [String.mk cur])

/-- Identifier runs of a string. -/
def ident_runs (s : String) : List String :=
  ident_runs_go s.data [] []

/-- Collection-variable set computed by pass 1 (empty when pass 1 fails). -/
def pass1_cv (nodes : List Node) : List String :=
  match pass1 nodes with
  | .ok (_, cv) => cv
  | .error _ => []

/-! ## Concrete evaluations refuting or exhibiting claims -/

/-- C1 counterexample: a literal-position bracket (preceded by the
assignment operator) whose content has a colon only inside a nested
bracket, hence no top-level colon, still opens a map literal, not the list
literal the claim requires. -/
theorem literal_bracket_nested_colon_cex :
    open_bracket (some (.OPERATOR "="))
        [.OPERAND "[", .NUMBER (.int 1), .OPERAND ":", .NUMBER (.int 2), .OPERAND "]"]
        [] = .ok (.cont "\x7b")
    ∧ top_level_colon_count
        [.OPERAND "[", .NUMBER (.int 1), .OPERAND ":", .NUMBER (.int 2), .OPERAND "]"]
        = 0 := by
  exact ⟨rfl, rfl⟩

/-- C2 counterexample: a declaration whose right-hand side starts with the
tuple delimiter is not registered in the collection-variable set (the
delimiter tokenizes as an operator node, the registration test requires an
operand node), so the later bracket after that name is emitted as a call
parenthesis, not as the indexing the claim requires. -/
theorem paren_rhs_not_registered_cex :
    transpile "a = (1,2)\nx = a[0]" = .ok "block_a=(1,2)\nblock_x=block_a(0)"
    ∧ pass1_cv (linesToAst (sourceToLine "a = (1,2)\nx = a[0]")) = [] := by
  exact ⟨rfl, rfl⟩

/-- C5 counterexample: an undeclared, non-builtin identifier containing a
digit fails the alphabetic test of the identifier branch, bypasses every
check, and is emitted verbatim: transpilation succeeds and produces
output, where the claim requires an undefined-identifier error. -/
theorem digit_identifier_unchecked_cex :
    transpile "a = x1" = .ok "block_a=x1"
    ∧ BUILTIN_CONSTANTS.lookup "x1" = none
    ∧ BUILTIN_FUNCTIONS.contains "x1" = false
    ∧ TypeSystem.init.is_defined_variable "x1" = false := by
  exact ⟨rfl, rfl, rfl, rfl⟩

/-- C6: the failing input evaluated.  A list literal with a nested map as
a direct element does not raise the unhashable-element error: the colon of
the nested map is counted by the any-depth colon scan, so the outer
bracket is itself emitted as a map opener and transpilation succeeds.
(The error branch requires a colon inside a nested bracket together with
no colon anywhere, which is impossible, so it is unreachable.) -/
theorem nested_map_literal_accepted :
    transpile "x = [[1:2], 3]" = .ok "block_x=\x7b\x7b1:2\x7d,3\x7d" := by
  exact rfl

/-- C7 counterexample: the iterable clause of a for line re-emits tokens
by raw py_value, so a declared name appears there without the block
prefix while its declaration is emitted with it: the same name occurs
both as an unprefixed and as a prefixed identifier run in one unit. -/
theorem iterable_clause_unprefixed_cex :
    transpile "a = 1\nfor i in a..a" =
      .ok "block_a=1\nfor block_i in range(a, a + 1)"
    ∧ (ident_runs "block_a=1\nfor block_i in range(a, a + 1)").contains "a" = true
    ∧ (ident_runs "block_a=1\nfor block_i in range(a, a + 1)").contains "block_a" = true := by
  exact ⟨rfl, rfl, rfl⟩

/-- C10: transpilation is a pure function of the source text.  The
embedding mirrors the source exactly here: astToPy itself constructs the
fresh TypeSystem and the empty collection-variable set (pass1 starts from
TypeSystem.init and []), nothing outlives a call, so two calls on the same
text are byte-identical and a pair of calls is the pair of independent
results. -/
theorem transpile_deterministic :
    ∀ s t : String,
      transpile_twice s t = (transpile s, transpile t)
      ∧ (transpile_twice s s).1 = (transpile_twice s s).2
      ∧ transpile s = astToPy (linesToAst (sourceToLine s))
      ∧ pass1 (linesToAst (sourceToLine s)) =
          pass1_go (linesToAst (sourceToLine s))
            ((linesToAst (sourceToLine s)).length + 1) 0 TypeSystem.init [] :=
  fun _ _ => ⟨rfl, rfl, rfl, rfl⟩

/-! ## The opening-bracket decision, characterized -/

theorem dict_scan_inner_no_colon (l : List Node)
    (h : ∀ n ∈ l, n ≠ Node.OPERAND ":") : dict_scan_inner l = false := by
  induction l with
  | nil => rfl
  | cons n rest ih =>
    unfold dict_scan_inner
    by_cases hn : n = Node.OPERAND "]"
    · rw [if_pos hn]
    · rw [if_neg hn, if_neg (h n (by simp))]
      exact ih (fun m hm => h m (by simp [hm]))

theorem has_dict_no_colon (l : List Node) (h : colon_count l = 0) :
    has_dict l = false := by
  have h' : ∀ n ∈ l, n ≠ Node.OPERAND ":" := by
    intro n hn
    have := List.countP_eq_zero.mp h n hn
    simpa using this
  induction l with
  | nil => rfl
  | cons n rest ih =>
    unfold has_dict
    have hrest : ∀ m ∈ rest, m ≠ Node.OPERAND ":" :=
      fun m hm => h' m (by simp [hm])
    have hd : dict_scan_inner rest = false := dict_scan_inner_no_colon rest hrest
    have hc : colon_count rest = 0 := by
      have := h
      unfold colon_count at this ⊢
      rw [List.countP_cons] at this
      omega
    rw [ih hc hrest]
    by_cases hn : n = Node.OPERAND "["
    · rw [if_pos hn, hd]; rfl
    · rw [if_neg hn]; rfl

theorem open_bracket_literal (prev : Option Node) (content : List Node)
    (cv : List String) (h : is_after_var prev = false) :
    open_bracket prev content cv =
      .ok (.cont (if colon_count content > 0 then "\x7b" else "[")) := by
  unfold open_bracket
  rw [h]
  simp only [Bool.false_and, Bool.false_eq_true, if_false]
  by_cases hcp : colon_count content > 0
  · rw [if_pos (by simpa using hcp), if_pos hcp]
  · rw [if_neg (by simpa using hcp), if_neg hcp,
      has_dict_no_colon content (by omega)]
    rfl

theorem open_bracket_member (content : List Node) (cv : List String) (v : String)
    (h2 : punct_values.contains v = false) (h3 : cv.contains v = true) :
    ∃ a, open_bracket (some (.OPERAND v)) content cv = .ok a
      ∧ (act_text a).data.head? = some '[' := by
  have hv : v ∉ punct_values := by simpa using h2
  unfold open_bracket
  have ha : is_after_var (some (.OPERAND v)) = true := by
    simp [is_after_var, hv]
  have hn : prev_var_name (some (.OPERAND v)) = some v := by
    simp [prev_var_name, hv]
  rw [ha, hn]
  simp only [h3, Bool.and_self, if_true]
  by_cases he : content.isEmpty
  · rw [if_pos he]
    exact ⟨.skip "[:]", rfl, rfl⟩
  · rw [if_neg he]
    by_cases hc : (comma_count content > 0 && !(colon_count content > 0)) = true
    · rw [if_pos hc]
      rcases hsp : split_commas content with _ | ⟨p0, tl⟩
      · exact ⟨.cont "[", rfl, rfl⟩
      · rcases tl with _ | ⟨p1, tl2⟩
        · exact ⟨.cont "[", rfl, rfl⟩
        · rcases tl2 with _ | ⟨p2, tl3⟩
          · refine ⟨.skip ("[" ++ render p0 ++ ":" ++ render p1 ++ "+1]"), rfl, ?_⟩
            simp [act_text, String.data_append]
          · exact ⟨.cont "[", rfl, rfl⟩
    · rw [if_neg hc]
      exact ⟨.cont "[", rfl, rfl⟩

theorem open_bracket_nonmember (content : List Node) (cv : List String) (v : String)
    (h2 : punct_values.contains v = false) (h3 : cv.contains v = false) :
    open_bracket (some (.OPERAND v)) content cv = .ok (.cont "(") := by
  have hv : v ∉ punct_values := by simpa using h2
  unfold open_bracket
  have ha : is_after_var (some (.OPERAND v)) = true := by
    simp [is_after_var, hv]
  have hn : prev_var_name (some (.OPERAND v)) = some v := by
    simp [prev_var_name, hv]
  rw [ha, hn]
  simp only [h3, Bool.and_false, Bool.false_eq_true, if_false, if_pos]

/-- C1 (amended): at a literal-position bracket (not immediately preceded
by a non-punctuation operand) the emitted opener is the map delimiter iff
the content contains a colon operand at any nesting depth (not only at the
top level, which the original claim stated), and the list delimiter iff it
contains none; a bracket immediately preceded by an identifier in the
collection-variable set always opens a subscript or slice form (text
starting with the square bracket), never a literal. -/
theorem literal_bracket_colon_disambiguation :
    (∀ prev content cv, is_after_var prev = false →
      open_bracket prev content cv =
        .ok (.cont (if colon_count content > 0 then "\x7b" else "[")))
    ∧ (∀ content cv v, punct_values.contains v = false → cv.contains v = true →
        ∃ a, open_bracket (some (.OPERAND v)) content cv = .ok a
          ∧ (act_text a).data.head? = some '[') := by
  exact ⟨open_bracket_literal, fun content cv v h2 h3 =>
    open_bracket_member content cv v h2 h3⟩

/-- C1 witness: instances of both halves at concrete inputs. -/
theorem literal_bracket_colon_disambiguation_inst :
    is_after_var (some (.OPERATOR "=")) = false
    ∧ open_bracket (some (.OPERATOR "="))
        [.NUMBER (.int 1), .OPERAND ":", .NUMBER (.int 2)] [] = .ok (.cont "\x7b")
    ∧ punct_values.contains "xs" = false
    ∧ (["xs"] : List String).contains "xs" = true
    ∧ ∃ a, open_bracket (some (.OPERAND "xs")) [.NUMBER (.int 0)] ["xs"] = .ok a
        ∧ (act_text a).data.head? = some '[' := by
  refine ⟨rfl, ?_, rfl, rfl, ?_⟩
  · have h := literal_bracket_colon_disambiguation.1 (some (.OPERATOR "="))
      [.NUMBER (.int 1), .OPERAND ":", .NUMBER (.int 2)] [] rfl
    simpa using h
  · exact literal_bracket_colon_disambiguation.2
      [.NUMBER (.int 0)] ["xs"] "xs" rfl rfl

/-! ## Pass-1 registration, characterized -/

theorem pass1_for_operand (nodes : List Node) (i : Nat) (ts : TypeSystem)
    (v : String) (h : nodes[i]? = some (.OPERAND v)) :
    pass1_for nodes i ts = .ok ts := by
  unfold pass1_for
  rw [h]

theorem pass1_fn_operand (nodes : List Node) (i : Nat) (ts : TypeSystem)
    (v : String) (h : nodes[i]? = some (.OPERAND v)) :
    pass1_fn nodes i ts = .ok ts := by
  unfold pass1_fn
  rw [h]

theorem pass1_step_operand (nodes : List Node) (i : Nat) (ts : TypeSystem)
    (cv : List String) (v : String) (h : nodes[i]? = some (.OPERAND v)) :
    pass1_step nodes i ts cv = pass1_var nodes i ts cv := by
  unfold pass1_step
  rw [pass1_for_operand nodes i ts v h]
  dsimp only
  rw [pass1_fn_operand nodes i ts v h]

theorem set_add_contains_self (s : List String) (x : String) :
    (set_add s x).contains x = true := by
  unfold set_add
  split
  · assumption
  · simp

theorem set_add_contains_of (s : List String) (x : String)
    (h : s.contains x = true) : ∀ y, (set_add s y).contains x = true := by
  intro y
  unfold set_add
  split
  · exact h
  · have : x ∈ s := by simpa using h
    simp [this]

theorem pass1_var_untyped (nodes : List Node) (i : Nat) (ts : TypeSystem)
    (cv : List String) (v : String) (ts' : TypeSystem) (cv' : List String)
    (h1 : nodes[i]? = some (.OPERAND v))
    (h2 : punct_values.contains v = false)
    (h3 : nodes[i + 1]? = some (.OPERATOR "="))
    (h4 : pass1_var nodes i ts cv = .ok (ts', cv')) :
    cv'.contains v = true ↔
      (cv.contains v = true ∨
        ∃ w, nodes[i + 2]? = some (.OPERAND w) ∧ is_open_delim w = true) := by
  unfold pass1_var at h4
  rw [h1, h3] at h4
  dsimp only at h4
  rw [h2, if_neg Bool.false_ne_true] at h4
  rcases hv2 : nodes[i + 2]? with _ | vn
  · rw [hv2] at h4
    dsimp only at h4
    injection h4 with h5
    injection h5 with h6 h7
    subst h7
    constructor
    · intro hc
      exact Or.inl hc
    · rintro (hc | ⟨w, hw, _⟩)
      · exact hc
      · cases hw
  · rw [hv2] at h4
    dsimp only at h4
    rcases hD : ts.define_variable v (infer_value_type nodes (i + 2) ts) with e | ts1
    · rw [hD] at h4
      cases h4
    · rw [hD] at h4
      dsimp only at h4
      injection h4 with h5
      injection h5 with h6 h7
      subst h7
      rcases vn with s | m | w | o | k | sp | ty
      case OPERAND =>
        dsimp only
        by_cases hw : is_open_delim w = true
        · rw [if_pos hw]
          constructor
          · intro _
            exact Or.inr ⟨w, rfl, hw⟩
          · intro _
            exact set_add_contains_self cv v
        · rw [if_neg hw]
          constructor
          · intro hc
            exact Or.inl hc
          · rintro (hc | ⟨w1, heq, hd⟩)
            · exact hc
            · injection heq with heq2
              injection heq2 with heq3
              subst heq3
              exact absurd hd hw
      all_goals
        dsimp only
        constructor
        · intro hc
          exact Or.inl hc
        · rintro (hc | ⟨w1, heq, hd⟩)
          · exact hc
          · cases heq

theorem pass1_var_typed (nodes : List Node) (i : Nat) (ts : TypeSystem)
    (cv : List String) (v : String) (ts' : TypeSystem) (cv' : List String)
    (vt : Option String) (te : Nat)
    (h1 : nodes[i]? = some (.OPERAND v))
    (h2 : punct_values.contains v = false)
    (h3 : nodes[i + 1]? = some (.OPERAND ":"))
    (hE : extract_type_info nodes (i + 1) = (vt, te))
    (h4 : pass1_var nodes i ts cv = .ok (ts', cv')) :
    cv'.contains v = true ↔
      (cv.contains v = true ∨
        (nodes[te]? = some (.OPERATOR "=")
          ∧ ∃ w, nodes[te + 1]? = some (.OPERAND w) ∧ is_open_delim w = true)) := by
  unfold pass1_var at h4
  rw [h1, h3] at h4
  dsimp only at h4
  rw [h2, if_neg Bool.false_ne_true, if_pos rfl, hE] at h4
  dsimp only at h4
  have step_ok : ∀ ts1 : TypeSystem,
      (Except.ok (ts1,
          match nodes[te]?, nodes[te + 1]? with
          | some (.OPERATOR o), some (.OPERAND w) =>
            if o = "=" && is_open_delim w then set_add cv v else cv
          | _, _ => cv) : Except String (TypeSystem × List String)) = .ok (ts', cv') →
      (cv'.contains v = true ↔
        (cv.contains v = true ∨
          (nodes[te]? = some (.OPERATOR "=")
            ∧ ∃ w, nodes[te + 1]? = some (.OPERAND w) ∧ is_open_delim w = true))) := by
    intro ts1 hok
    injection hok with h5
    injection h5 with h6 h7
    subst h7
    rcases hA : nodes[te]? with _ | na
    · dsimp only
      constructor
      · exact fun hc => Or.inl hc
      · rintro (hc | ⟨heq, _⟩)
        · exact hc
        · cases heq
    · rcases na with s | m | w | o | k | sp | ty
      case OPERATOR =>
        rcases hB : nodes[te + 1]? with _ | nb
        · dsimp only
          constructor
          · exact fun hc => Or.inl hc
          · rintro (hc | ⟨heq, w1, hw1, _⟩)
            · exact hc
            · cases hw1
        · rcases nb with s2 | m2 | w2 | o2 | k2 | sp2 | ty2
          case OPERAND =>
            dsimp only
            by_cases hcond : (o = "=" && is_open_delim w2) = true
            · rw [if_pos hcond]
              rw [Bool.and_eq_true] at hcond
              constructor
              · intro _
                refine Or.inr ⟨?_, w2, rfl, hcond.2⟩
                have : o = "=" := by simpa using hcond.1
                rw [this]
              · intro _
                exact set_add_contains_self cv v
            · rw [if_neg hcond]
              constructor
              · exact fun hc => Or.inl hc
              · rintro (hc | ⟨heq, w1, hw1, hd1⟩)
                · exact hc
                · injection heq with heq2
                  injection heq2 with heq3
                  injection hw1 with hw2
                  injection hw2 with hw3
                  subst heq3
                  subst hw3
                  rw [Bool.and_eq_true] at hcond
                  push_neg at hcond
                  exact absurd (hcond (by simp)) (by simp [hd1])
          all_goals
            dsimp only
            constructor
            · exact fun hc => Or.inl hc
            · rintro (hc | ⟨heq, w1, hw1, _⟩)
              · exact hc
              · cases hw1
      all_goals
        dsimp only
        constructor
        · exact fun hc => Or.inl hc
        · rintro (hc | ⟨heq, _⟩)
          · exact hc
          · cases heq
  rcases vt with _ | t
  · dsimp only at h4
    exact step_ok ts h4
  · dsimp only at h4
    by_cases hval : valid_type t = true
    · rw [if_pos hval, TypeSystem.define_variable, if_pos hval] at h4
      dsimp only at h4
      exact step_ok _ h4
    · rw [if_neg hval] at h4
      dsimp only at h4
      exact step_ok ts h4

/-! ## Tokenizer shape: parentheses and braces are always operators -/

theorem next_token_single_not_paren (c : Char) (rest : List Char) (t : Node)
    (r : List Char) (h : next_token_single c rest = (some t, r)) :
    t ≠ .OPERAND "(" ∧ t ≠ .OPERAND "\x7b" := by
  unfold next_token_single at h
  split_ifs at h with hs hp ha
  · injection h with h1 _
    injection h1 with h2
    subst h2
    exact ⟨fun hx => Node.noConfusion hx, fun hx => Node.noConfusion hx⟩
  · injection h with h1 _
    injection h1 with h2
    subst h2
    simp only [Bool.or_eq_true, decide_eq_true_eq] at hp
    rcases hp with (((rfl | rfl) | rfl) | rfl) <;> exact ⟨by decide, by decide⟩
  · injection h with h1 _
    injection h1 with h2
    subst h2
    constructor
    · intro hx
      split at hx
      · cases hx
      · injection hx with hw
        have hcl : c :: rest.takeWhile ident_cont = ['('] := by
          have := congrArg String.data hw
          simpa using this
        have hc : c = '(' := (List.cons.injEq _ _ _ _).mp hcl |>.1
        subst hc
        simp only [Bool.or_eq_true, decide_eq_true_eq] at ha
        rcases ha with ha | ha
        · exact absurd ha (by decide)
        · exact absurd ha (by decide)
    · intro hx
      split at hx
      · cases hx
      · injection hx with hw
        have hcl : c :: rest.takeWhile ident_cont = ['\x7b'] := by
          have := congrArg String.data hw
          simpa using this
        have hc : c = '\x7b' := (List.cons.injEq _ _ _ _).mp hcl |>.1
        subst hc
        simp only [Bool.or_eq_true, decide_eq_true_eq] at ha
        rcases ha with ha | ha
        · exact absurd ha (by decide)
        · exact absurd ha (by decide)
  · cases h

theorem next_token_not_paren (cs : List Char) (t : Node) (r : List Char)
    (h : next_token cs = (some t, r)) :
    t ≠ .OPERAND "(" ∧ t ≠ .OPERAND "\x7b" := by
  rcases cs with _ | ⟨c, rest⟩
  · cases h
  · unfold next_token at h
    dsimp only at h
    split_ifs at h with h1 h2 h3
    · cases h
    · injection h with ht _
      injection ht with ht2
      subst ht2
      exact ⟨fun hx => Node.noConfusion hx, fun hx => Node.noConfusion hx⟩
    · injection h with ht _
      injection ht with ht2
      subst ht2
      unfold number_node
      split
      · exact ⟨fun hx => Node.noConfusion hx, fun hx => Node.noConfusion hx⟩
      · exact ⟨fun hx => Node.noConfusion hx, fun hx => Node.noConfusion hx⟩
    · rcases rest with _ | ⟨c2, r2⟩
      · exact next_token_single_not_paren c [] t r h
      · dsimp only at h
        split_ifs at h with h4 h5
        · injection h with ht _
          injection ht with ht2
          subst ht2
          exact ⟨fun hx => Node.noConfusion hx, fun hx => Node.noConfusion hx⟩
        · injection h with ht _
          injection ht with ht2
          subst ht2
          exact ⟨fun hx => Node.noConfusion hx, fun hx => Node.noConfusion hx⟩
        · exact next_token_single_not_paren c (c2 :: r2) t r h

theorem tokenize_go_not_paren (fuel : Nat) :
    ∀ cs : List Char,
      (tokenize_go fuel cs).contains (.OPERAND "(") = false ∧
      (tokenize_go fuel cs).contains (.OPERAND "\x7b") = false := by
  induction fuel with
  | zero => intro cs; cases cs <;> exact ⟨rfl, rfl⟩
  | succ f ih =>
    intro cs
    rcases cs with _ | ⟨c, rest⟩
    · exact ⟨rfl, rfl⟩
    · unfold tokenize_go
      rcases hnt : next_token (c :: rest) with ⟨t?, r⟩
      rcases t? with _ | t
      · exact ih r
      · have hshape := next_token_not_paren (c :: rest) t r hnt
        have hr := ih r
        dsimp only
        constructor
        · simp only [List.contains_cons, Bool.or_eq_false_iff]
          constructor
          · simpa using fun hx => hshape.1 (by rw [hx])
          · exact hr.1
        · simp only [List.contains_cons, Bool.or_eq_false_iff]
          constructor
          · simpa using fun hx => hshape.2 (by rw [hx])
          · exact hr.2

/-- C2 (amended): at a declaration site the name enters the
collection-variable set iff the right-hand side's first token is an
opening-delimiter operand node; since the tokenizer emits the parenthesis
and brace delimiters as operator nodes and never as operands, only a
right-hand side beginning with the square bracket registers in a real
token stream (the original claim said all three registered).  A later
bracket after a registered name is emitted as a subscript or slice
(opening with the square bracket), after an unregistered identifier as a
call parenthesis. -/
theorem collection_registration_amended :
    (∀ (nodes : List Node) (i : Nat) (ts : TypeSystem) (cv : List String)
        (v : String) (ts' : TypeSystem) (cv' : List String),
      nodes[i]? = some (.OPERAND v) →
      punct_values.contains v = false →
      nodes[i + 1]? = some (.OPERATOR "=") →
      pass1_step nodes i ts cv = .ok (ts', cv') →
      (cv'.contains v = true ↔
        (cv.contains v = true ∨
          ∃ w, nodes[i + 2]? = some (.OPERAND w) ∧ is_open_delim w = true)))
    ∧ (∀ cs : List Char,
        (tokenize_chars cs).contains (.OPERAND "(") = false ∧
        (tokenize_chars cs).contains (.OPERAND "\x7b") = false)
    ∧ (∀ content cv v, punct_values.contains v = false → cv.contains v = false →
        open_bracket (some (.OPERAND v)) content cv = .ok (.cont "("))
    ∧ (∀ content cv v, punct_values.contains v = false → cv.contains v = true →
        ∃ a, open_bracket (some (.OPERAND v)) content cv = .ok a
          ∧ (act_text a).data.head? = some '[') := by
  refine ⟨?_, ?_, ?_, ?_⟩
  · intro nodes i ts cv v ts' cv' h1 h2 h3 h4
    rw [pass1_step_operand nodes i ts cv v h1] at h4
    exact pass1_var_untyped nodes i ts cv v ts' cv' h1 h2 h3 h4
  · intro cs
    exact tokenize_go_not_paren cs.length cs
  · intro content cv v h2 h3
    exact open_bracket_nonmember content cv v h2 h3
  · intro content cv v h2 h3
    exact open_bracket_member content cv v h2 h3

/-- C2 witness: the registration iff instantiated at the token stream of
a declaration whose right-hand side starts with the square bracket. -/
theorem collection_registration_amended_inst :
    (["x"] : List String).contains "x" = true ↔
      (([] : List String).contains "x" = true ∨
        ∃ w, ([Node.OPERAND "x", Node.OPERATOR "=", Node.OPERAND "["] : List Node)[0 + 2]? =
            some (Node.OPERAND w) ∧ is_open_delim w = true) :=
  collection_registration_amended.1
    [Node.OPERAND "x", Node.OPERATOR "=", Node.OPERAND "["]
    0 TypeSystem.init [] "x" { TypeSystem.init with vars := [("x", "list")] } ["x"]
    rfl rfl rfl (by rfl)

/-- C3: at a bracket after a collection-variable identifier, empty content
emits the whole-collection copy marker, content with a comma, no colon and
exactly two comma-separated parts emits the inclusive slice with the
exclusive upper bound obtained by appending the plus-one, and any other
comma split (more or fewer parts) falls back to the plain subscript
bracket; the plus-one is what makes the source's inclusive end match the
target's exclusive slicing, as the slice semantics conjuncts state. -/
theorem collection_bracket_slice_spec :
    (∀ cv v, punct_values.contains v = false → cv.contains v = true →
      open_bracket (some (.OPERAND v)) [] cv = .ok (.skip "[:]"))
    ∧ (∀ cv v content p0 p1, punct_values.contains v = false → cv.contains v = true →
        comma_count content > 0 → colon_count content = 0 →
        split_commas content = [p0, p1] →
        open_bracket (some (.OPERAND v)) content cv =
          .ok (.skip ("[" ++ render p0 ++ ":" ++ render p1 ++ "+1]")))
    ∧ (∀ cv v content, punct_values.contains v = false → cv.contains v = true →
        comma_count content > 0 → colon_count content = 0 →
        (split_commas content).length ≠ 2 →
        open_bracket (some (.OPERAND v)) content cv = .ok (.cont "["))
    ∧ (∀ (l : List Int) (a b : Nat), a ≤ b → b < l.length →
        (py_slice l a (b + 1)).length = b + 1 - a)
    ∧ py_slice ([1, 2, 3, 4] : List Int) 0 (1 + 1) = [1, 2] := by
  have hmember : ∀ cv (v : String) content, punct_values.contains v = false →
      cv.contains v = true →
      open_bracket (some (.OPERAND v)) content cv =
        (if content.isEmpty then Except.ok (BracketAction.skip "[:]")
         else if (comma_count content > 0 && !(colon_count content > 0)) = true then
           (match split_commas content with
            | [p0, p1] =>
              Except.ok (BracketAction.skip ("[" ++ render p0 ++ ":" ++ render p1 ++ "+1]"))
            | _ => Except.ok (BracketAction.cont "["))
         else Except.ok (BracketAction.cont "[")) := by
    intro cv v content h2 h3
    have hv : v ∉ punct_values := by simpa using h2
    unfold open_bracket
    have ha : is_after_var (some (.OPERAND v)) = true := by
      simp [is_after_var, hv]
    have hn : prev_var_name (some (.OPERAND v)) = some v := by
      simp [prev_var_name, hv]
    rw [ha, hn]
    simp only [h3, Bool.and_self, if_true]
  have hnonempty : ∀ content : List Node, comma_count content > 0 →
      content.isEmpty = false := by
    intro content hc
    rcases content with _ | ⟨n, rest⟩
    · exact absurd hc (by simp [comma_count])
    · rfl
  refine ⟨?_, ?_, ?_, ?_, ?_⟩
  · intro cv v h2 h3
    rw [hmember cv v [] h2 h3]
    rfl
  · intro cv v content p0 p1 h2 h3 hcm hcl hsp
    rw [hmember cv v content h2 h3, hnonempty content hcm,
      if_neg Bool.false_ne_true, if_pos (by simp [hcm, hcl]), hsp]
  · intro cv v content h2 h3 hcm hcl hlen
    rw [hmember cv v content h2 h3, hnonempty content hcm,
      if_neg Bool.false_ne_true, if_pos (by simp [hcm, hcl])]
    rcases hsp : split_commas content with _ | ⟨p0, tl⟩
    · rfl
    · rcases tl with _ | ⟨p1, tl2⟩
      · rfl
      · rcases tl2 with _ | ⟨p2, tl3⟩
        · rw [hsp] at hlen
          exact absurd rfl hlen
        · rfl
  · intro l a b hab hbl
    unfold py_slice
    rw [List.length_drop, List.length_take]
    omega
  · rfl

/-- C3 witness: the copy marker, the slice form and the slice semantics at
concrete inputs. -/
theorem collection_bracket_slice_spec_inst :
    open_bracket (some (.OPERAND "xs")) [] ["xs"] = .ok (.skip "[:]")
    ∧ open_bracket (some (.OPERAND "xs"))
        [.NUMBER (.int 0), .OPERAND ",", .NUMBER (.int 1)] ["xs"] =
        .ok (.skip ("[" ++ render [Node.NUMBER (.int 0)] ++ ":"
          ++ render [Node.NUMBER (.int 1)] ++ "+1]"))
    ∧ (py_slice ([1, 2, 3, 4] : List Int) 0 (1 + 1)).length = 1 + 1 - 0 := by
  refine ⟨?_, ?_, ?_⟩
  · exact collection_bracket_slice_spec.1 ["xs"] "xs" rfl rfl
  · exact collection_bracket_slice_spec.2.1 ["xs"] "xs"
      [.NUMBER (.int 0), .OPERAND ",", .NUMBER (.int 1)]
      [Node.NUMBER (.int 0)] [Node.NUMBER (.int 1)]
      rfl rfl (by decide) (by decide) (by decide)
  · exact collection_bracket_slice_spec.2.2.2.1 [1, 2, 3, 4] 0 1
      (by decide) (by decide)

/-! ## The for-line range construct -/

theorem range_split_found_fst (l : List Node) : (range_split l true).1 = [] := by
  induction l with
  | nil => rfl
  | cons t rest ih =>
    unfold range_split
    by_cases ht : t = Node.OPERATOR ".."
    · rw [if_pos ht]
      exact ih
    · rw [if_neg ht]
      dsimp only
      exact ih

theorem range_split_fst_takeWhile (toks : List Node) :
    (range_split toks false).1 =
      toks.takeWhile (fun t => !decide (t = Node.OPERATOR "..")) := by
  induction toks with
  | nil => rfl
  | cons t rest ih =>
    by_cases ht : t = Node.OPERATOR ".."
    · subst ht
      simp [range_split, range_split_found_fst, List.takeWhile_cons]
    · simp [range_split, ht, ih, List.takeWhile_cons]

theorem py_range_facts (A B : Int) (hAB : A ≤ B) :
    (py_range A (B + 1)).length = (B + 1 - A).toNat
    ∧ (∀ x : Int, x ∈ py_range A (B + 1) ↔ A ≤ x ∧ x ≤ B)
    ∧ (py_range A (B + 1)).Chain' (· < ·) := by
  refine ⟨?_, ?_, ?_⟩
  · unfold py_range
    rw [List.length_map, List.length_range]
  · intro x
    unfold py_range
    rw [List.mem_map]
    constructor
    · rintro ⟨k, hk, rfl⟩
      rw [List.mem_range] at hk
      omega
    · rintro ⟨h1, h2⟩
      refine ⟨(x - A).toNat, ?_, ?_⟩
      · rw [List.mem_range]
        omega
      · omega
  · unfold py_range
    apply List.Pairwise.chain'
    refine List.Pairwise.map _ (fun a b h => ?_) (List.pairwise_lt_range _)
    omega

/-- C4: when the iterable tokens of a for line contain the range operator
and both rendered sides are non-empty, the emitted construct is the
half-open range primitive with the upper bound incremented by one; with no
range operator the token text is emitted unchanged.  The side split takes
everything before the first range operator as the start expression.  The
semantics conjunct states that range with that incremented bound iterates
exactly the closed interval: B minus A plus one values, each integer of
the interval once, strictly increasing. -/
theorem range_loop_spec :
    (∀ toks : List Node, toks.any (fun t => t = .OPERATOR "..") = true →
      (render (range_split toks false).1).data.isEmpty = false →
      (render (range_split toks false).2).data.isEmpty = false →
      for_iterable_text toks =
        "range(" ++ render (range_split toks false).1 ++ ", "
          ++ render (range_split toks false).2 ++ " + 1)")
    ∧ (∀ toks : List Node, toks.any (fun t => t = .OPERATOR "..") = false →
        for_iterable_text toks = render toks)
    ∧ (∀ toks : List Node,
        (range_split toks false).1 =
          toks.takeWhile (fun t => !decide (t = Node.OPERATOR "..")))
    ∧ (∀ A B : Int, A ≤ B →
        (py_range A (B + 1)).length = (B + 1 - A).toNat
        ∧ (∀ x : Int, x ∈ py_range A (B + 1) ↔ A ≤ x ∧ x ≤ B)
        ∧ (py_range A (B + 1)).Chain' (· < ·)) := by
  refine ⟨?_, ?_, range_split_fst_takeWhile, py_range_facts⟩
  · intro toks h1 h2 h3
    unfold for_iterable_text
    rw [if_pos h1]
    dsimp only
    rw [if_pos (by simp [h2, h3])]
  · intro toks h1
    unfold for_iterable_text
    rw [if_neg (by simp [h1])]

/-- C4 witness: the range emission and the interval semantics at concrete
inputs. -/
theorem range_loop_spec_inst :
    for_iterable_text [Node.NUMBER (.int 1), .OPERATOR "..", .NUMBER (.int 5)] =
      "range(" ++ render [Node.NUMBER (.int 1)] ++ ", "
        ++ render [Node.NUMBER (.int 5)] ++ " + 1)"
    ∧ (py_range 1 (5 + 1)).length = ((5 : Int) + 1 - 1).toNat
    ∧ ((3 : Int) ∈ py_range 1 (5 + 1) ↔ (1 : Int) ≤ 3 ∧ (3 : Int) ≤ 5) := by
  refine ⟨?_, ?_, ?_⟩
  · have h := range_loop_spec.1 [Node.NUMBER (.int 1), .OPERATOR "..", .NUMBER (.int 5)]
      (by decide) (by decide) (by decide)
    simpa using h
  · exact (range_loop_spec.2.2.2 1 5 (by decide)).1
  · exact (range_loop_spec.2.2.2 1 5 (by decide)).2.1 3

/-! ## Identifier emission, characterized -/

/-- C5 (amended): for an identifier whose name passes the alphabetic test
(all alphabetic, or the bare underscore), emission checks the builtin
constant table, then the builtin function table, then requires symbol
table presence and raises the undefined-identifier error at a value
position otherwise; an identifier containing a digit or an underscore
fails the alphabetic test and is re-emitted verbatim by the fall-through
branch with no check at all (the original claim asserted the checks for
every identifier). -/
theorem identifier_validation_amended :
    (∀ (ts : TypeSystem) (v : String) (next : Option Node) (c : String × String),
      BUILTIN_CONSTANTS.lookup v = some c →
      emit_identifier ts v next = .ok c.2)
    ∧ (∀ (ts : TypeSystem) (v : String) (next : Option Node),
        BUILTIN_CONSTANTS.lookup v = none → BUILTIN_FUNCTIONS.contains v = true →
        emit_identifier ts v next = .ok v)
    ∧ (∀ (ts : TypeSystem) (v w : String),
        BUILTIN_CONSTANTS.lookup v = none → BUILTIN_FUNCTIONS.contains v = false →
        v ≠ "," → w ≠ ":" →
        ts.is_defined_variable v = false → ts.is_defined_function v = false →
        emit_identifier ts v (some (.OPERAND w)) =
          .error ("Undefined identifier '" ++ v ++ "'"))
    ∧ (∀ (nodes : List Node) (ts : TypeSystem) (cv : List String) (fuel i : Nat)
        (code : List String) (line : String) (v : String),
        nodes[i]? = some (.OPERAND v) →
        (py_isalpha v || v = "_") = false →
        v ≠ ":" → v ≠ "[" → v ≠ "]" →
        pass2_go nodes ts cv (fuel + 1) i code line =
          pass2_go nodes ts cv fuel (i + 1) code (line ++ v)) := by
  refine ⟨?_, ?_, ?_, ?_⟩
  · intro ts v next c hc
    have hcm : v ≠ "," := by
      rintro rfl
      rw [show BUILTIN_CONSTANTS.lookup "," = none from rfl] at hc
      cases hc
    obtain ⟨ty, py⟩ := c
    unfold emit_identifier
    rw [if_neg hcm, hc]
  · intro ts v next hc hf
    have hcm : v ≠ "," := by
      rintro rfl
      rw [show BUILTIN_FUNCTIONS.contains "," = false from rfl] at hf
      cases hf
    unfold emit_identifier
    rw [if_neg hcm, hc]
    dsimp only
    rw [hf, if_pos rfl]
  · intro ts v w hc hf hcm hw h5 h6
    unfold emit_identifier emit_ident_use
    rw [if_neg hcm, hc]
    dsimp only
    rw [hf, if_neg Bool.false_ne_true]
    rw [if_neg hw, h5, h6, if_pos (show (!false && !false) = true by decide)]
  · intro nodes ts cv fuel i code line v h1 h2 h3 h4 h5
    conv =>
      lhs
      unfold pass2_go
    simp only [h1]
    rw [if_neg h3, if_neg h4, if_neg h5, h2, if_neg Bool.false_ne_true]

/-- C5 witness: the undefined-identifier error and the constant and
builtin cases at concrete inputs. -/
theorem identifier_validation_amended_inst :
    emit_identifier TypeSystem.init "q" (some (.OPERAND "[")) =
      .error ("Undefined identifier '" ++ "q" ++ "'")
    ∧ emit_identifier TypeSystem.init "true" none = .ok ("bool", "True").2
    ∧ emit_identifier TypeSystem.init "len" none = .ok "len" := by
  refine ⟨?_, ?_, ?_⟩
  · exact identifier_validation_amended.2.2.1 TypeSystem.init "q" "["
      rfl rfl (by decide) (by decide) rfl rfl
  · exact identifier_validation_amended.1 TypeSystem.init "true" none
      ("bool", "True") rfl
  · exact identifier_validation_amended.2.1 TypeSystem.init "len" none rfl rfl

/-- C7 (amended): every occurrence of a non-builtin name that flows
through the identifier-emission rule is namespaced with the same fixed
block prefix, whatever the following token is; but tokens re-emitted as
raw text are rendered by py_value, and the rendering of an operand token
is the bare name with no prefix, which is what the iterable clause of a
for line uses for its whole token list (with or without range operator),
so one name can appear both prefixed and unprefixed in one unit (the
original claim asserted the same prefix at every occurrence). -/
theorem prefix_consistency_amended :
    (∀ (ts : TypeSystem) (v : String) (next : Option Node) (r : String),
      emit_identifier ts v next = .ok r →
      BUILTIN_CONSTANTS.lookup v = none → BUILTIN_FUNCTIONS.contains v = false →
      v ≠ "," → r = "block_" ++ v)
    ∧ (∀ v : String, render [Node.OPERAND v] = v)
    ∧ (∀ toks : List Node, toks.any (fun t => t = .OPERATOR "..") = false →
        for_iterable_text toks = render toks) := by
  refine ⟨?_, ?_, ?_⟩
  · intro ts v next r h hc hf hcm
    unfold emit_identifier emit_ident_use at h
    rw [if_neg hcm, hc] at h
    dsimp only at h
    rw [hf, if_neg Bool.false_ne_true] at h
    rcases next with _ | n
    · injection h with h2
      exact h2.symm
    · rcases n with s | m | w | o | k | sp | ty <;> dsimp only at h <;>
        split_ifs at h <;>
        first
          | exact absurd h (fun hx => Except.noConfusion hx)
          | (injection h with h2; exact h2.symm)
  · intro v
    rfl
  · intro toks h1
    unfold for_iterable_text
    rw [if_neg (by simp [h1])]

/-- C7 witness: the uniform prefix at a concrete successful emission. -/
theorem prefix_consistency_amended_inst :
    "block_" ++ "q" = "block_" ++ "q"
    ∧ ∀ r, emit_identifier TypeSystem.init "q" (some (.OPERATOR "=")) = .ok r →
        r = "block_" ++ "q" := by
  refine ⟨rfl, ?_⟩
  intro r h
  exact prefix_consistency_amended.1 TypeSystem.init "q" (some (.OPERATOR "=")) r
    h rfl rfl (by decide)

/-! ## The numeric scan of the tokenizer -/

theorem digit_char_facts (c : Char) (h : c.isDigit = true) :
    py_is_space c = false ∧ c ≠ '"' ∧ c ≠ '.' ∧ c ≠ '-' := by
  refine ⟨?_, ?_, ?_, ?_⟩
  · cases hps : py_is_space c
    · rfl
    · exfalso
      unfold py_is_space at hps
      simp only [Bool.or_eq_true, decide_eq_true_eq] at hps
      rcases hps with ((((rfl | rfl) | rfl) | rfl) | rfl) | rfl <;>
        exact absurd h (by decide)
  · rintro rfl
    exact absurd h (by decide)
  · rintro rfl
    exact absurd h (by decide)
  · rintro rfl
    exact absurd h (by decide)

theorem scan_number_all_digits (b : List Char) :
    ∀ hd : Bool, (∀ c ∈ b, c.isDigit = true) → scan_number b hd = (b, []) := by
  induction b with
  | nil => intro hd _; rfl
  | cons c rest ih =>
    intro hd h
    unfold scan_number
    rw [if_pos (h c (by simp))]
    dsimp only
    rw [ih hd (fun x hx => h x (by simp [hx]))]

theorem scan_number_digit_prefix (a : List Char) (rest' : List Char)
    (h : ∀ c ∈ a, c.isDigit = true) :
    scan_number (a ++ '.' :: '.' :: rest') false = (a, '.' :: '.' :: rest') := by
  induction a with
  | nil =>
    rw [List.nil_append]
    simp only [scan_number]
    rw [if_neg (by decide), if_pos (by decide)]
  | cons c arest ih =>
    rw [List.cons_append]
    simp only [scan_number]
    rw [if_pos (h c (by simp))]
    rw [ih (fun x hx => h x (by simp [hx]))]

theorem scan_number_dot_count (cs : List Char) :
    ∀ hd : Bool,
      ((scan_number cs hd).1.countP (fun c => c = '.')) ≤ (if hd then 0 else 1) := by
  induction cs with
  | nil => intro hd; cases hd <;> simp [scan_number]
  | cons c rest ih =>
    intro hd
    unfold scan_number
    by_cases hc : c.isDigit = true
    · rw [if_pos hc]
      dsimp only
      rw [List.countP_cons]
      have hcd : c ≠ '.' := (digit_char_facts c hc).2.2.1
      rw [if_neg (by simpa using hcd), Nat.add_zero]
      exact ih hd
    · rw [if_neg hc]
      by_cases hdot : (c = '.' && !hd) = true
      · rw [if_pos hdot]
        rw [Bool.and_eq_true] at hdot
        have hc2 : c = '.' := by simpa using hdot.1
        have hhd : hd = false := by simpa using hdot.2
        subst hc2
        subst hhd
        rcases rest with _ | ⟨r1, rr⟩
        · simp [scan_number]
        · by_cases hr : r1 = '.'
          · subst hr
            simp
          · have hmatch :
                (match r1 :: rr with
                  | '.' :: _ => (([] : List Char), '.' :: r1 :: rr)
                  | _ =>
                    ('.' :: (scan_number (r1 :: rr) true).1,
                      (scan_number (r1 :: rr) true).2)) =
                ('.' :: (scan_number (r1 :: rr) true).1,
                  (scan_number (r1 :: rr) true).2) := by
              rcases hq : r1 with ⟨n⟩
              split
              · rename_i heq
                injection heq with heq1 _
                exact absurd (hq ▸ heq1) hr
              · rfl
            rw [hmatch]
            dsimp only
            rw [List.countP_cons]
            have h0 : ((scan_number (r1 :: rr) true).1.countP
                (fun c => decide (c = '.'))) = 0 :=
              Nat.le_zero.mp (by simpa using ih true)
            rw [h0]
            simp
      · rw [if_neg hdot]
        cases hd <;> simp

theorem scan_number_last_dot (cs : List Char) :
    ∀ hd : Bool, (scan_number cs hd).1.getLast? = some '.' →
      (scan_number cs hd).2.head? ≠ some '.' := by
  induction cs with
  | nil =>
    intro hd h
    simp [scan_number] at h
  | cons c rest ih =>
    intro hd h
    unfold scan_number at h ⊢
    by_cases hc : c.isDigit = true
    · rw [if_pos hc] at h ⊢
      dsimp only at h ⊢
      rcases hp : (scan_number rest hd).1 with _ | ⟨x, xs⟩
      · rw [hp] at h
        simp only [List.getLast?_singleton] at h
        injection h with h2
        exact absurd h2 (digit_char_facts c hc).2.2.1
      · rw [hp] at h
        rw [List.getLast?_cons_cons] at h
        have := ih hd (by rw [hp]; exact h)
        exact this
    · rw [if_neg hc] at h ⊢
      by_cases hdot : (c = '.' && !hd) = true
      · rw [if_pos hdot] at h ⊢
        rw [Bool.and_eq_true] at hdot
        have hc2 : c = '.' := by simpa using hdot.1
        subst hc2
        rcases rest with _ | ⟨r1, rr⟩
        · intro hcontra
          simp [scan_number] at hcontra
        · by_cases hr : r1 = '.'
          · subst hr
            dsimp only at h
            simp at h
          · have hmatch :
                (match r1 :: rr with
                  | '.' :: _ => (([] : List Char), '.' :: r1 :: rr)
                  | _ =>
                    ('.' :: (scan_number (r1 :: rr) true).1,
                      (scan_number (r1 :: rr) true).2)) =
                ('.' :: (scan_number (r1 :: rr) true).1,
                  (scan_number (r1 :: rr) true).2) := by
              rcases hq : r1 with ⟨n⟩
              split
              · rename_i heq
                injection heq with heq1 _
                exact absurd (hq ▸ heq1) hr
              · rfl
            rw [hmatch] at h ⊢
            dsimp only at h ⊢
            rcases hp : (scan_number (r1 :: rr) true).1 with _ | ⟨x, xs⟩
            · unfold scan_number at hp ⊢
              by_cases hr1 : r1.isDigit = true
              · rw [if_pos hr1] at hp ⊢
                dsimp only at hp
                cases hp
              · rw [if_neg hr1] at hp ⊢
                rw [if_neg (by simp)] at hp ⊢
                dsimp only
                intro hcontra
                injection hcontra with hcontra2
                exact hr hcontra2
            · rw [hp] at h
              rw [List.getLast?_cons_cons] at h
              have := ih true (by rw [hp]; exact h)
              exact this
      · rw [if_neg hdot] at h
        simp at h

theorem tokenize_go_nil (f : Nat) : tokenize_go f [] = [] := by
  cases f <;> rfl

theorem next_token_digit (c : Char) (cs : List Char) (h : c.isDigit = true) :
    next_token (c :: cs) =
      (some (number_node (c :: (scan_number cs false).1)),
        (scan_number cs false).2) := by
  obtain ⟨hsp, hq, _, _⟩ := digit_char_facts c h
  simp only [next_token]
  rw [hsp, if_neg Bool.false_ne_true, if_neg hq, if_pos (by simp [h])]

theorem number_node_digits (l : List Char) (h : ∀ c ∈ l, c.isDigit = true) :
    number_node l = Node.NUMBER (.int (py_int l)) := by
  unfold number_node
  rw [if_neg]
  intro hcon
  have : '.' ∈ l := by simpa using hcon
  exact absurd (h '.' this) (by decide)

theorem tokenize_abb (f : Nat) (a b : List Char) (ha : a ≠ []) (hb : b ≠ [])
    (hda : ∀ c ∈ a, c.isDigit = true) (hdb : ∀ c ∈ b, c.isDigit = true) :
    tokenize_go (f + 3) (a ++ '.' :: '.' :: b) =
      [number_node a, Node.OPERATOR "..", number_node b] := by
  rcases a with _ | ⟨c, a'⟩
  · exact absurd rfl ha
  · rw [List.cons_append]
    simp only [tokenize_go]
    rw [next_token_digit c _ (hda c (by simp)),
      scan_number_digit_prefix a' b (fun x hx => hda x (by simp [hx]))]
    dsimp only
    simp only [tokenize_go]
    rw [show next_token ('.' :: '.' :: b) = (some (Node.OPERATOR ".."), b) by
      simp only [next_token]
      rw [if_neg (by decide), if_neg (by decide),
        if_neg (by simp [digit_next]), if_pos (by decide)]
      rw [if_neg (by decide)]]
    dsimp only
    rcases b with _ | ⟨d, b'⟩
    · exact absurd rfl hb
    · simp only [tokenize_go]
      rw [next_token_digit d b' (hdb d (by simp)),
        scan_number_all_digits b' false (fun x hx => hdb x (by simp [hx]))]
      dsimp only
      rw [tokenize_go_nil]

/-- C9: the numeric scan consumes at most one decimal point and never a
dot whose immediately following character is also a dot (so two digit
strings joined by the range operator tokenize as number, range operator,
number, the scan stopping at the boundary even when its literal ends just
before the dots), and the literal is a float exactly when a decimal point
was consumed. -/
theorem numeric_scan_spec :
    (∀ a b : List Char, a ≠ [] → b ≠ [] →
      (∀ c ∈ a, c.isDigit = true) → (∀ c ∈ b, c.isDigit = true) →
      tokenize_chars (a ++ '.' :: '.' :: b) =
        [Node.NUMBER (.int (py_int a)), Node.OPERATOR "..",
         Node.NUMBER (.int (py_int b))])
    ∧ (∀ cs : List Char,
        ((scan_number cs false).1.countP (fun c => c = '.')) ≤ 1)
    ∧ (∀ cs : List Char, ∀ hd : Bool,
        (scan_number cs hd).1.getLast? = some '.' →
        (scan_number cs hd).2.head? ≠ some '.')
    ∧ (∀ (c : Char) (cs : List Char), c.isDigit = true →
        next_token (c :: cs) =
          (some (number_node (c :: (scan_number cs false).1)),
            (scan_number cs false).2))
    ∧ (∀ num : List Char,
        (∃ t, number_node num = Node.NUMBER (.float t)) ↔
          num.contains '.' = true) := by
  refine ⟨?_, ?_, scan_number_last_dot, next_token_digit, ?_⟩
  · intro a b ha hb hda hdb
    obtain ⟨f, hf⟩ : ∃ f, (a ++ '.' :: '.' :: b).length = f + 3 := by
      refine ⟨a.length + b.length - 1, ?_⟩
      rcases a with _ | ⟨c, a'⟩
      · exact absurd rfl ha
      · rcases b with _ | ⟨d, b'⟩
        · exact absurd rfl hb
        · simp [List.length_append]
          omega
    rw [tokenize_chars, hf, tokenize_abb f a b ha hb hda hdb,
      number_node_digits a hda, number_node_digits b hdb]
  · intro cs
    have h := scan_number_dot_count cs false
    simpa using h
  · intro num
    unfold number_node
    cases hcon : num.contains '.'
    · rw [if_neg Bool.false_ne_true]
      constructor
      · rintro ⟨t, ht⟩
        cases ht
      · intro hfalse
        cases hfalse
    · rw [if_pos rfl]
      exact ⟨fun _ => rfl, fun _ => ⟨py_float_str num, rfl⟩⟩

/-- C9 witness: the range-operator boundary at a concrete literal. -/
theorem numeric_scan_spec_inst :
    tokenize_chars ['1', '2', '.', '.', '7'] =
      [Node.NUMBER (.int (py_int ['1', '2'])), Node.OPERATOR "..",
       Node.NUMBER (.int (py_int ['7']))] :=
  numeric_scan_spec.1 ['1', '2'] ['7'] (by decide) (by decide)
    (by decide) (by decide)

end Block
